import Mathlib

/-!
Verification of the task-ordering and lifecycle engine of the Task Thrower
application (`src/app/page.tsx`, `src/lib/taskStore.ts`, `src/lib/dateOnly.ts`).

The TypeScript sources are shallowly embedded: JavaScript numbers that the
program only ever uses integrally are modelled as `Int`, JavaScript strings as
`String` (compared by code unit, see `jsLtStr`), missing/invalid stored fields
as `Option`, and thrown exceptions as `Except`/`Option`.  Note that for a
positive literal divisor Lean's `Int` division `/` (Euclidean) coincides with
floor division, which is the semantics ECMAScript specifies for `Date`
arithmetic, so `/` and `%` below faithfully model the ECMA operations.
-/

/-- Decidable equality for `Except`, so concrete runs of the fallible
operations can be checked by `decide`. -/
instance {α β : Type} [DecidableEq α] [DecidableEq β] : DecidableEq (Except α β) := fun x y =>
  match x, y with
  | .error a, .error b =>
    if h : a = b then .isTrue (by rw [h]) else .isFalse (fun hc => h (Except.error.inj hc))
  | .ok a, .ok b =>
    if h : a = b then .isTrue (by rw [h]) else .isFalse (fun hc => h (Except.ok.inj hc))
  | .error _, .ok _ => .isFalse (fun hc => Except.noConfusion hc)
  | .ok _, .error _ => .isFalse (fun hc => Except.noConfusion hc)

namespace TaskThrower

/-! ### JavaScript primitives -/

/-- JavaScript `a || b` on numbers (with integral values): `a` is falsy iff it
is `0`. -/
def jsOr (a b : Int) : Int := if a = 0 then b else a

/-- JavaScript `a || b` on strings: `a` is falsy iff it is the empty string. -/
def jsOrStr (a b : String) : String := if a = "" then b else a

/-- Code-unit lexicographic `<` on character lists, as JavaScript's relational
operators define it for strings. -/
def strLtChars : List Char → List Char → Bool
  | [], [] => false
  | [], _ :: _ => true
  | _ :: _, [] => false
  | a :: as, b :: bs =>
    if a.toNat < b.toNat then true
    else if b.toNat < a.toNat then false
    else strLtChars as bs

/-- JavaScript `a < b` for strings. -/
def jsLtStr (a b : String) : Bool := strLtChars a.data b.data

/-- JavaScript `a <= b` for strings (`a <= b` is `¬ (b < a)`). -/
def jsLeStr (a b : String) : Bool := ! jsLtStr b a

/-! ### DateOnly (`src/lib/dateOnly.ts`)

`addDaysISO` parses a `YYYY-MM-DD` string, builds a UTC `Date`, shifts it with
`setUTCDate`, and reformats.  The ECMAScript `Date` operations it goes through
(`Date.UTC`, `getUTCDate`, `setUTCDate`, `getUTCFullYear`, …) are modelled by
`makeDay` (ECMA `MakeDay`: civil date to day number) and `civilFromDays`
(ECMA `YearFromTime`/`MonthFromTime`/`DateFromTime`: day number back to civil
date). -/

/-- The character JavaScript's number-to-string conversion uses for a digit. -/
def digitChar (n : Nat) : Char := Char.ofNat (48 + n)

/-- Numeric value of a digit character. -/
def digitVal (c : Char) : Int := (c.toNat : Int) - 48

/-- Decimal digits of a natural number, most significant first; the fuel
argument (any value above the number itself) only forces termination. -/
def natDigitsAux : Nat → Nat → List Char
  | 0, n => [digitChar n]
  | fuel + 1, n =>
    if n < 10 then [digitChar n]
    else natDigitsAux fuel (n / 10) ++ [digitChar (n % 10)]

/-- Decimal digit string of a natural number. -/
def natDigits (n : Nat) : List Char := natDigitsAux n n

/-- JavaScript `String(n)` for an integral number. -/
def intStr (n : Int) : List Char :=
  if n < 0 then '-' :: natDigits (-n).toNat else natDigits n.toNat

/-- `pad2` from `dateOnly.ts`: `String(n).padStart(2, "0")`. -/
def pad2 (n : Int) : List Char :=
  let cs := intStr n
  if 2 ≤ cs.length then cs else List.replicate (2 - cs.length) '0' ++ cs

/-- `toISO` from `dateOnly.ts`: the template string
`"y-pad2(m)-pad2(d)"`. -/
def toISO (y m d : Int) : String :=
  String.mk (intStr y ++ '-' :: (pad2 m ++ '-' :: pad2 d))

/-- `isISODate` from `dateOnly.ts`: the regular expression
`^\d{4}-\d{2}-\d{2}$`. -/
def isISODate (s : String) : Bool :=
  match s.data with
  | [y1, y2, y3, y4, h1, m1, m2, h2, d1, d2] =>
    y1.isDigit && y2.isDigit && y3.isDigit && y4.isDigit && h1 == '-' &&
      m1.isDigit && m2.isDigit && h2 == '-' && d1.isDigit && d2.isDigit
  | _ => false

/-- `parseISO` from `dateOnly.ts`: match the same pattern and convert the three
digit groups with `Number(...)`; a non-matching string throws. -/
def parseISO (s : String) : Except String (Int × Int × Int) :=
  match s.data with
  | [y1, y2, y3, y4, h1, m1, m2, h2, d1, d2] =>
    if y1.isDigit && y2.isDigit && y3.isDigit && y4.isDigit && h1 == '-' &&
        m1.isDigit && m2.isDigit && h2 == '-' && d1.isDigit && d2.isDigit then
      .ok (1000 * digitVal y1 + 100 * digitVal y2 + 10 * digitVal y3 + digitVal y4,
        10 * digitVal m1 + digitVal m2,
        10 * digitVal d1 + digitVal d2)
    else .error ("Invalid ISO date: " ++ s)
  | _ => .error ("Invalid ISO date: " ++ s)

/-- ECMA `DaysInYear` is 366 exactly under this condition (Gregorian leap
year). -/
def isLeap (y : Int) : Bool := decide ((y % 4 = 0 ∧ ¬ y % 100 = 0) ∨ y % 400 = 0)

/-- ECMA `DayFromYear`: the day number of January 1 of year `y` (day 0 is
1970-01-01). -/
def dayFromYear (y : Int) : Int :=
  365 * (y - 1970) + (y - 1969) / 4 - (y - 1901) / 100 + (y - 1601) / 400

/-- Cumulative day count before 0-based month `m` (ECMA `DayWithinYear`
boundaries); `L` tells whether the year is leap. -/
def daysBeforeMonth (L : Bool) (m : Int) : Int :=
  let e : Int := if L then 1 else 0
  if m ≤ 0 then 0
  else if m = 1 then 31
  else if m = 2 then 59 + e
  else if m = 3 then 90 + e
  else if m = 4 then 120 + e
  else if m = 5 then 151 + e
  else if m = 6 then 181 + e
  else if m = 7 then 212 + e
  else if m = 8 then 243 + e
  else if m = 9 then 273 + e
  else if m = 10 then 304 + e
  else if m = 11 then 334 + e
  else 365 + e

/-- ECMA `MonthFromTime` expressed on the day of the year (0-based month). -/
def monthFromYearDay (L : Bool) (yd : Int) : Int :=
  let e : Int := if L then 1 else 0
  if yd < 31 then 0
  else if yd < 59 + e then 1
  else if yd < 90 + e then 2
  else if yd < 120 + e then 3
  else if yd < 151 + e then 4
  else if yd < 181 + e then 5
  else if yd < 212 + e then 6
  else if yd < 243 + e then 7
  else if yd < 273 + e then 8
  else if yd < 304 + e then 9
  else if yd < 334 + e then 10
  else 11

/-- ECMA `MakeDay y m d`: day number of day `d` (1-based, may overflow) of
0-based month `m` (may overflow into other years) of year `y`. -/
def makeDay (y m d : Int) : Int :=
  let ym := y + m / 12
  let mn := m % 12
  dayFromYear ym + daysBeforeMonth (isLeap ym) mn + d - 1

/-- ECMA `YearFromTime` on a day number: the unique year `y` with
`dayFromYear y ≤ z < dayFromYear (y+1)`, computed from a first-order
approximation corrected by at most one. -/
def yearFromDay (z : Int) : Int :=
  let a := 1970 + 400 * z / 146097
  if dayFromYear (a + 1) ≤ z then a + 1
  else if dayFromYear a ≤ z then a
  else a - 1

/-- Civil date (year, 1-based month, day of month) of a day number: the values
ECMA `getUTCFullYear`, `getUTCMonth() + 1` and `getUTCDate` produce. -/
def civilFromDays (z : Int) : Int × Int × Int :=
  let y := yearFromDay z
  let yd := z - dayFromYear y
  let m0 := monthFromYearDay (isLeap y) yd
  (y, m0 + 1, yd - daysBeforeMonth (isLeap y) m0 + 1)

/-- Body of `addDaysISO` after a successful parse of `baseISO` into `y-m-d`:

* `Date.UTC(y, m - 1, d)` (with the ECMA two-digit-year rule mapping
  `0 ≤ y ≤ 99` to `1900 + y`) produces the day number `z0`;
* `dt.setUTCDate(dt.getUTCDate() + days)` recomputes
  `MakeDay(getUTCFullYear, getUTCMonth, getUTCDate + days)`; a result outside
  ECMA's time range (`±100,000,000` days) makes the `Date` invalid, in which
  case the three getters return `NaN` and the template yields
  `"NaN-NaN-NaN"`;
* the result is formatted with `toISO`. -/
def addDaysYMD (y m d days : Int) : String :=
  let yr := if 0 ≤ y ∧ y ≤ 99 then 1900 + y else y
  let z0 := makeDay yr (m - 1) d
  let p := civilFromDays z0
  let z := makeDay p.1 (p.2.1 - 1) (p.2.2 + days)
  if 100000000 < z.natAbs then "NaN-NaN-NaN"
  else
    let q := civilFromDays z
    toISO q.1 q.2.1 q.2.2

/-- `addDaysISO` from `dateOnly.ts`: reject strings that fail `isISODate`,
otherwise parse and shift. -/
def addDaysISO (baseISO : String) (days : Int) : Except String String :=
  if isISODate baseISO then
    (parseISO baseISO).map (fun v => addDaysYMD v.1 v.2.1 v.2.2 days)
  else .error ("Invalid baseISO: " ++ baseISO)

/-! ### Task records (`src/lib/taskStore.ts`) -/

/-- A task as the application sees it after `listTasks` normalization. -/
structure Task where
  id : String
  uid : String
  title : String
  dueDate : String
  removed : Bool
  doneCount : Int
  lastDoneDate : String
  throwCount : Int
  sortOrder : Int
  sorter : Int
  createdAtMs : Int
  updatedAtMs : Int
deriving DecidableEq, Repr

/-- Placeholder task used only to give `List.getD` a default. -/
def blankTask : Task :=
  { id := "", uid := "", title := "", dueDate := "", removed := false,
    doneCount := 0, lastDoneDate := "", throwCount := 0, sortOrder := 0,
    sorter := 0, createdAtMs := 0, updatedAtMs := 0 }

instance : Inhabited Task := ⟨blankTask⟩

/-- A stored document as `listTasks` reads it: every field may be missing or
hold junk that `Number(...)` turns into `NaN` (modelled as `none`); `str`
already yields a trimmed string. -/
structure RawDoc where
  id : String
  uid : Option String
  title : Option String
  dueDate : Option String
  removed : Option Bool
  doneCount : Option Int
  lastDoneDate : Option String
  throwCount : Option Int
  sortOrder : Option Int
  sorter : Option Int
  createdAtMs : Option Int
  updatedAtMs : Option Int
deriving DecidableEq, Repr

/-- `num` from `taskStore.ts`: `Number(v)` when finite, otherwise `0`. -/
def num (v : Option Int) : Int := v.getD 0

/-- `str(v ?? "")` from `taskStore.ts` on a possibly missing string field. -/
def strField (v : Option String) : String := v.getD ""

/-- `bool` from `taskStore.ts` on a possibly missing boolean field. -/
def boolField (v : Option Bool) : Bool := v.getD false

/-- `Math.round(s / 1000)` for an integral `s`: floor of `s/1000 + 1/2`. -/
def jsRoundDiv1000 (s : Int) : Int := (s + 500) / 1000

/-- The per-document normalization in `listTasks`
(`src/lib/taskStore.ts:567-609`): default timestamps, sentinel `dueDate`,
non-negative counters, `sorter` falling back to `createdAtMs`, and `sortOrder`
derived from `sorter` when absent or out of the 1..24 range. -/
def normalizeDoc (d : RawDoc) : Task :=
  let createdAtMs := jsOr (num d.createdAtMs) 0
  let updatedAtMs := jsOr (num d.updatedAtMs) (jsOr createdAtMs 0)
  let dueDate := jsOrStr (strField d.dueDate) "9999-12-31"
  let removed := boolField d.removed
  let doneCount := max 0 (num d.doneCount)
  let lastDoneDate := strField d.lastDoneDate
  let throwCount := max 0 (num d.throwCount)
  let sorter0 := num d.sorter
  let sortOrder0 := num d.sortOrder
  let sorter := if sorter0 ≤ 0 then jsOr createdAtMs (jsOr updatedAtMs 0) else sorter0
  let sortOrder :=
    if sortOrder0 < 1 ∨ 24 < sortOrder0 then
      let derived := jsRoundDiv1000 (jsOr sorter 0)
      min 24 (max 1 (jsOr derived 24))
    else sortOrder0
  { id := d.id, uid := strField d.uid, title := strField d.title,
    dueDate := dueDate, removed := removed, doneCount := doneCount,
    lastDoneDate := lastDoneDate, throwCount := throwCount,
    sortOrder := sortOrder, sorter := sorter,
    createdAtMs := createdAtMs, updatedAtMs := updatedAtMs }

/-- `listTasks`: one normalized task per stored document. -/
def listTasksModel (docs : List RawDoc) : List Task := docs.map normalizeDoc

/-- Sample drifted record: `sortOrder` missing, `sorter` present and valid. -/
def driftDoc : RawDoc :=
  { id := "x", uid := none, title := none, dueDate := none, removed := none,
    doneCount := none, lastDoneDate := none, throwCount := none,
    sortOrder := none, sorter := some 2000, createdAtMs := some 1234,
    updatedAtMs := none }

/-- `uniq` from `taskStore.ts`: drop empty ids and deduplicate. -/
def uniqIds (ids : List String) : List String :=
  (ids.filter (fun x => x ≠ "")).dedup

/-- `removeTasks(taskIds, removed, options?)` from `taskStore.ts:733-747`,
applied to a snapshot of the stored task set: no-op when the cleaned id list
is empty; otherwise each targeted document gets `removed` set and, when
`throwDelta` is non-zero (JavaScript truthiness), `throwCount` incremented;
`batchUpdate` also stamps `updatedAtMs := now`. -/
def removeTasksModel (taskIds : List String) (removed : Bool) (throwDelta now : Int)
    (tasks : List Task) : List Task :=
  let ids := uniqIds taskIds
  if ids.isEmpty then tasks
  else
    tasks.map fun t =>
      if t.id ∈ ids then
        { t with removed := removed,
                 throwCount := t.throwCount + (if throwDelta = 0 then 0 else throwDelta),
                 updatedAtMs := now }
      else t

/-- The deduplicating `Map` in `rescheduleTasksIndividually`: the value for an
id is the last one set. -/
def lookupLast (items : List (String × String)) (id : String) : Option String :=
  (items.filterMap fun p => if p.1 = id then some p.2 else none).getLast?

/-- `rescheduleTasksIndividually(items, options?)` from
`taskStore.ts:703-730`, applied to a snapshot of the stored task set: entries
with an empty id or date are skipped, later entries for the same id win, and
each targeted document gets its own `dueDate` plus, when `throwDelta` is
non-zero, a `throwCount` increment; `batchUpdate` stamps
`updatedAtMs := now`. -/
def rescheduleIndividuallyModel (items : List (String × String)) (throwDelta now : Int)
    (tasks : List Task) : List Task :=
  let cleaned := items.filter fun p => p.1 ≠ "" ∧ p.2 ≠ ""
  if cleaned.isEmpty then tasks
  else
    tasks.map fun t =>
      match lookupLast cleaned t.id with
      | some due =>
        { t with dueDate := due,
                 throwCount := t.throwCount + (if throwDelta = 0 then 0 else throwDelta),
                 updatedAtMs := now }
      | none => t

/-! ### Page logic (`src/app/page.tsx`) -/

/-- `clampSortOrder` from `page.tsx:73-78` (`Math.floor` is the identity on
integral values). -/
def clampSortOrder (v : Int) : Int :=
  if v < 1 then 1 else if 24 < v then 24 else v

/-- Comparator of the Today list (`page.tsx:257-263`) as a boolean
`comparator(a, b) ≤ 0` relation for a stable sort: `clampSortOrder sortOrder`
ascending, then `sorter` ascending, then `createdAtMs` ascending. -/
def todayCmp (a b : Task) : Bool :=
  if clampSortOrder a.sortOrder ≠ clampSortOrder b.sortOrder then
    clampSortOrder a.sortOrder < clampSortOrder b.sortOrder
  else if a.sorter ≠ b.sorter then a.sorter < b.sorter
  else a.createdAtMs ≤ b.createdAtMs

/-- Comparator of the Future list (`page.tsx:270-273`): `dueDate` ascending,
then `createdAtMs` ascending. -/
def futureCmp (a b : Task) : Bool :=
  if a.dueDate ≠ b.dueDate then jsLtStr a.dueDate b.dueDate
  else a.createdAtMs ≤ b.createdAtMs

/-- Comparator of the Removed list (`page.tsx:280-283`): `dueDate` descending,
then `updatedAtMs` descending. -/
def removedCmp (a b : Task) : Bool :=
  if a.dueDate ≠ b.dueDate then jsLtStr b.dueDate a.dueDate
  else b.updatedAtMs ≤ a.updatedAtMs

/-- Membership test of the Today view (`page.tsx:251-256`):
`!t.removed && t.dueDate <= baseDate`. -/
def isTodayTask (base : String) (t : Task) : Bool :=
  !t.removed && jsLeStr t.dueDate base

/-- Membership test of the Future view (`page.tsx:267-269`):
`!t.removed && t.dueDate > baseDate`. -/
def isFutureTask (base : String) (t : Task) : Bool :=
  !t.removed && jsLtStr base t.dueDate

/-- Membership test of the Removed view (`page.tsx:277-279`). -/
def isRemovedTask (t : Task) : Bool := t.removed

/-- `todayTasks` (`page.tsx:254-264`): active tasks due on or before the
reference date, sorted by `todayCmp`. -/
def todayTasksList (allTasks : List Task) (base : String) : List Task :=
  (allTasks.filter (isTodayTask base)).mergeSort todayCmp

/-- `futureTasks` (`page.tsx:267-274`). -/
def futureTasksList (allTasks : List Task) (base : String) : List Task :=
  (allTasks.filter (isFutureTask base)).mergeSort futureCmp

/-- `removedTasks` (`page.tsx:277-284`). -/
def removedTasksList (allTasks : List Task) : List Task :=
  (allTasks.filter isRemovedTask).mergeSort removedCmp

/-- `nextSorterForSortOrder` (`page.tsx:308-314`): reduce the sorters of the
Today tasks in the clamped band with `Math.max` starting from `0`, then
`(max || 0) + 1000`. -/
def nextSorterForSortOrder (todayTasks : List Task) (so : Int) : Int :=
  let target := clampSortOrder so
  let mx := (todayTasks.filter fun t => clampSortOrder t.sortOrder = target).foldl
    (fun acc t => max acc t.sorter) 0
  jsOr mx 0 + 1000

/-- `onBackFromRemoved` (`page.tsx:459-471`): the restored task gets
`dueDate = baseDate`, `removed = false` and a sorter issued by
`nextSorterForSortOrder(24)`; `batchUpdate` stamps `updatedAtMs := now`. -/
def onBackFromRemoved (todayTasks : List Task) (base : String) (now : Int) (t : Task) : Task :=
  { t with dueDate := base, removed := false,
           sorter := nextSorterForSortOrder todayTasks 24, updatedAtMs := now }

/-- `arrayMove` from `dnd-kit`: remove the element at `fromIdx` and reinsert it
at `toIdx`. -/
def arrayMove (l : List Task) (fromIdx toIdx : Nat) : List Task :=
  (l.eraseIdx fromIdx).insertIdx toIdx (l.getD fromIdx blankTask)

/-- The `inheritedSO` constant of `onDragEnd` (`page.tsx:496-499`): the
`sortOrder` of the drop position's previous neighbour in the simulated
post-move list (`prev`), else of the next neighbour (`next`), else the moved
task's own. -/
def dragInheritedSO (todayTasks : List Task) (oldIndex newIndex : Nat) : Int :=
  let moved := arrayMove todayTasks oldIndex newIndex
  if 0 < newIndex then clampSortOrder (moved.getD (newIndex - 1) blankTask).sortOrder
  else if newIndex < moved.length - 1 then
    clampSortOrder (moved.getD (newIndex + 1) blankTask).sortOrder
  else clampSortOrder (moved.getD newIndex blankTask).sortOrder

/-- The update rows built by `onDragEnd` (`page.tsx:493-506`) once both indices
are known: simulate the move, let the moved item inherit `dragInheritedSO`,
and hand every position a fresh sorter `(i + 1) * 1000`.  Each row is
`(id, sorter, sortOrder)`. -/
def dragUpdates (todayTasks : List Task) (oldIndex newIndex : Nat) :
    List (String × Int × Int) :=
  let moved := arrayMove todayTasks oldIndex newIndex
  moved.mapIdx fun i t =>
    (t.id, ((i : Int) + 1) * 1000,
      if t.id = (moved.getD newIndex blankTask).id then
        dragInheritedSO todayTasks oldIndex newIndex
      else clampSortOrder t.sortOrder)

/-- `onDragEnd` (`page.tsx:482-506`) up to the persistence call: `none` when
the drop is on the dragged row itself or either id is not in the Today list,
otherwise the computed update rows. -/
def onDragEnd (todayTasks : List Task) (activeId overId : String) :
    Option (List (String × Int × Int)) :=
  if activeId = overId then none
  else
    let ids := todayTasks.map (·.id)
    match ids.findIdx? (· = activeId), ids.findIdx? (· = overId) with
    | some oldIndex, some newIndex => some (dragUpdates todayTasks oldIndex newIndex)
    | _, _ => none

/-- The items `onThrow` builds for the `SWIPE` action (`page.tsx:412-419`):
the checked tasks in screen order, the `i`-th thrown to
`addDaysISO(baseDate, (i + 1) + 3)`; any `addDaysISO` throw aborts the whole
action. -/
def onThrowSwipeItems (todayTasks : List Task) (selected : String → Bool)
    (base : String) : Except String (List (String × String)) :=
  ((todayTasks.filter fun t => selected t.id).mapIdx fun i t =>
    (addDaysISO base ((i : Int) + 1 + 3)).map fun due => (t.id, due)).mapM id

/-- Selection state after `onThrow` (`page.tsx:406-441`): an empty selection
returns before doing anything; otherwise `setSelected({})` runs only on the
success path of the `try` block — when the awaited mutation throws, control
jumps to `catch` and the selection is left as it was (`success` abstracts
whether the batched mutation resolved or rejected). -/
def onThrowSelectionAfter (selectedIds : List String) (success : Bool) : List String :=
  if selectedIds.isEmpty then selectedIds
  else if success then [] else selectedIds


/-! ## Helper lemmas -/

theorem strLtChars_self (l : List Char) : strLtChars l l = false := by
  induction l with
  | nil => rfl
  | cons a as ih => simp [strLtChars, ih]

theorem jsLtStr_self (s : String) : jsLtStr s s = false := strLtChars_self s.data

theorem jsOr_zero (a : Int) : jsOr a 0 = a := by
  unfold jsOr
  split <;> omega

/-! ## C1: the partition into Today, Future and Removed -/

/-- C1: for every task `t` and reference date `R`, exactly one of the three
views Today, Future, Removed contains `t` (Today iff not removed and
`dueDate ≤ R`, Future iff not removed and `dueDate > R`, Removed iff removed);
membership is a pure function of `(t.dueDate, t.removed, R)`; and a task with
`dueDate = R` is classified Today, never Future. -/
theorem claim_C1 (t : Task) (base : String) :
    ((isTodayTask base t = true ∧ isFutureTask base t = false ∧ isRemovedTask t = false) ∨
      (isTodayTask base t = false ∧ isFutureTask base t = true ∧ isRemovedTask t = false) ∨
      (isTodayTask base t = false ∧ isFutureTask base t = false ∧ isRemovedTask t = true)) ∧
    (∀ t' : Task, t'.dueDate = t.dueDate → t'.removed = t.removed →
      isTodayTask base t' = isTodayTask base t ∧
      isFutureTask base t' = isFutureTask base t ∧
      isRemovedTask t' = isRemovedTask t) ∧
    (t.dueDate = base →
      isFutureTask base t = false ∧ (t.removed = false → isTodayTask base t = true)) ∧
    (∀ allTasks : List Task,
      (t ∈ todayTasksList allTasks base ↔ t ∈ allTasks ∧ isTodayTask base t = true) ∧
      (t ∈ futureTasksList allTasks base ↔ t ∈ allTasks ∧ isFutureTask base t = true) ∧
      (t ∈ removedTasksList allTasks ↔ t ∈ allTasks ∧ isRemovedTask t = true)) := by
  refine ⟨?_, ?_, ?_, ?_⟩
  · rcases hr : t.removed with _ | _
    · rcases hlt : jsLtStr base t.dueDate with _ | _
      · exact Or.inl (by simp [isTodayTask, isFutureTask, isRemovedTask, jsLeStr, hr, hlt])
      · exact Or.inr (Or.inl (by simp [isTodayTask, isFutureTask, isRemovedTask, jsLeStr, hr, hlt]))
    · exact Or.inr (Or.inr (by simp [isTodayTask, isFutureTask, isRemovedTask, hr]))
  · intro t' hd hrm
    simp [isTodayTask, isFutureTask, isRemovedTask, jsLeStr, hd, hrm]
  · intro hd
    subst hd
    constructor
    · simp [isFutureTask, jsLtStr_self]
    · intro hr
      simp [isTodayTask, jsLeStr, jsLtStr_self, hr]
  · intro allTasks
    refine ⟨?_, ?_, ?_⟩ <;>
      simp [todayTasksList, futureTasksList, removedTasksList, List.mem_mergeSort,
        List.mem_filter]

/-- Witness for C1 at a concrete task whose due date equals the reference
date. -/
theorem claim_C1_witness :
    isFutureTask "2024-01-01" { blankTask with dueDate := "2024-01-01" } = false ∧
    isTodayTask "2024-01-01" { blankTask with dueDate := "2024-01-01" } = true :=
  ⟨((claim_C1 { blankTask with dueDate := "2024-01-01" } "2024-01-01").2.2.1 rfl).1,
    ((claim_C1 { blankTask with dueDate := "2024-01-01" } "2024-01-01").2.2.1 rfl).2 rfl⟩

/-! ## C6: the selection set after a bulk throw -/

/-- C6 counterexample: with a non-empty selection, a failed batched mutation
leaves the selection as it was — it is not cleared, contradicting the claim
that clearing happens in either outcome. -/
theorem claim_C6_counterexample :
    onThrowSelectionAfter ["a"] false = ["a"] ∧ ["a"] ≠ ([] : List String) := by
  constructor
  · rfl
  · simp

/-- C6 (amended): after `onThrow` with a non-empty selection the selection set
is empty when the batched mutation succeeded, and unchanged (still the old
selection) when it threw. -/
theorem claim_C6_amended (selectedIds : List String) (h : selectedIds ≠ []) :
    onThrowSelectionAfter selectedIds true = [] ∧
    onThrowSelectionAfter selectedIds false = selectedIds := by
  have hne : selectedIds.isEmpty = false := by
    cases selectedIds with
    | nil => exact absurd rfl h
    | cons a l => rfl
  constructor <;> simp [onThrowSelectionAfter, hne]

/-- Witness for the amended C6 at a concrete selection. -/
theorem claim_C6_amended_witness :
    onThrowSelectionAfter ["a", "b"] true = [] ∧
    onThrowSelectionAfter ["a", "b"] false = ["a", "b"] :=
  claim_C6_amended ["a", "b"] (by simp)

/-! ## C10: plain remove versus throw-remove -/

/-- C10: plain single-item remove (`onRemove`, which calls
`removeTasks([id], true)` with no `throwDelta`) sets `removed` and leaves every
`throwCount` unchanged, while `BulkThrow(Remove)` (`removeTasks(ids, true,
{throwDelta: 1})`) sets `removed` and increments `throwCount` by exactly one
for each selected task, leaving unselected tasks untouched. -/
theorem claim_C10 (tasks : List Task) (id : String) (sel : List String) (now : Int)
    (i : Nat) (hid : id ≠ "") (hsel : ∀ s ∈ sel, s ≠ "") (hi : i < tasks.length) :
    ((removeTasksModel [id] true 0 now tasks).getD i blankTask).throwCount =
      (tasks.getD i blankTask).throwCount ∧
    ((tasks.getD i blankTask).id = id →
      ((removeTasksModel [id] true 0 now tasks).getD i blankTask).removed = true) ∧
    ((tasks.getD i blankTask).id ∈ sel →
      ((removeTasksModel sel true 1 now tasks).getD i blankTask).removed = true ∧
      ((removeTasksModel sel true 1 now tasks).getD i blankTask).throwCount =
        (tasks.getD i blankTask).throwCount + 1) ∧
    ((tasks.getD i blankTask).id ∉ sel →
      (removeTasksModel sel true 1 now tasks).getD i blankTask =
        tasks.getD i blankTask) := by
  have huniq : uniqIds [id] = [id] := by
    simp [uniqIds, List.filter, hid]
  have hgetd : ∀ (f : Task → Task), (tasks.map f).getD i blankTask =
      f (tasks.getD i blankTask) := by
    intro f
    rw [List.getD_eq_getElem tasks blankTask hi,
      List.getD_eq_getElem (tasks.map f) blankTask (by simpa using hi)]
    simp
  refine ⟨?_, ?_, ?_, ?_⟩
  · rw [removeTasksModel, huniq]
    simp only [List.isEmpty_cons, Bool.false_eq_true, if_false, hgetd]
    split <;> simp
  · intro hmem
    rw [removeTasksModel, huniq]
    simp only [List.isEmpty_cons, Bool.false_eq_true, if_false, hgetd]
    rw [if_pos (by simpa using hmem)]
  · intro hmem
    have hmem' : (tasks.getD i blankTask).id ∈ uniqIds sel := by
      simp only [uniqIds, List.mem_dedup, List.mem_filter]
      exact ⟨hmem, by simpa using hsel _ hmem⟩
    have hne : (uniqIds sel).isEmpty = false := by
      rcases h : uniqIds sel with _ | ⟨a, l⟩
      · rw [h] at hmem'; simp at hmem'
      · rfl
    rw [removeTasksModel, hne]
    simp only [Bool.false_eq_true, if_false, hgetd]
    rw [if_pos hmem']
    exact ⟨rfl, rfl⟩
  · intro hmem
    have hmem' : (tasks.getD i blankTask).id ∉ uniqIds sel := by
      simp only [uniqIds, List.mem_dedup, List.mem_filter]
      exact fun hc => hmem hc.1
    rw [removeTasksModel]
    split
    · rfl
    · rw [hgetd, if_neg hmem']

/-- Witness for C10: a two-task snapshot where "a" is plainly removed and "b"
is throw-removed. -/
theorem claim_C10_witness :
    ((removeTasksModel ["a"] true 0 7 [{ blankTask with id := "a", throwCount := 5 },
        { blankTask with id := "b" }]).getD 0 blankTask).throwCount =
      (([{ blankTask with id := "a", throwCount := 5 },
        { blankTask with id := "b" }] : List Task).getD 0 blankTask).throwCount ∧
    ((removeTasksModel ["b"] true 1 7 [{ blankTask with id := "a", throwCount := 5 },
        { blankTask with id := "b" }]).getD 1 blankTask).removed = true ∧
    ((removeTasksModel ["b"] true 1 7 [{ blankTask with id := "a", throwCount := 5 },
        { blankTask with id := "b" }]).getD 1 blankTask).throwCount =
      (([{ blankTask with id := "a", throwCount := 5 },
        { blankTask with id := "b" }] : List Task).getD 1 blankTask).throwCount + 1 := by
  have h0 := claim_C10 [{ blankTask with id := "a", throwCount := 5 },
    { blankTask with id := "b" }] "a" ["b"] 7 0 (by decide) (by decide) (by decide)
  have h1 := claim_C10 [{ blankTask with id := "a", throwCount := 5 },
    { blankTask with id := "b" }] "b" ["b"] 7 1 (by decide) (by decide) (by decide)
  exact ⟨h0.1, (h1.2.2.1 (by decide)).1, (h1.2.2.1 (by decide)).2⟩


/-! ## Sorter assignment (`nextSorterForSortOrder`) -/

theorem foldl_max_init_le (l : List Task) (acc : Int) :
    acc ≤ l.foldl (fun a t => max a t.sorter) acc := by
  induction l generalizing acc with
  | nil => exact le_refl acc
  | cons t l ih => exact le_trans (le_max_left acc t.sorter) (ih _)

theorem le_foldl_max (l : List Task) :
    ∀ (acc : Int) (t : Task), t ∈ l → t.sorter ≤ l.foldl (fun a u => max a u.sorter) acc := by
  induction l with
  | nil => intro acc t ht; cases ht
  | cons u l ih =>
    intro acc t ht
    rw [List.foldl_cons]
    rcases List.mem_cons.mp ht with h | h
    · subst h
      exact le_trans (le_max_right acc t.sorter) (foldl_max_init_le l _)
    · exact ih (max acc u.sorter) t h

theorem foldl_max_cases (l : List Task) :
    ∀ acc : Int, l.foldl (fun a u => max a u.sorter) acc = acc ∨
      ∃ t ∈ l, l.foldl (fun a u => max a u.sorter) acc = t.sorter := by
  induction l with
  | nil => exact fun acc => Or.inl rfl
  | cons u l ih =>
    intro acc
    rw [List.foldl_cons]
    rcases ih (max acc u.sorter) with h | ⟨t, ht, h⟩
    · rw [h]
      rcases le_or_lt u.sorter acc with hc | hc
      · exact Or.inl (max_eq_left hc)
      · exact Or.inr ⟨u, List.mem_cons_self u l, max_eq_right hc.le⟩
    · exact Or.inr ⟨t, List.mem_cons_of_mem u ht, h⟩

/-- The band maximum used by `nextSorterForSortOrder` never drops below 0. -/
theorem foldl_max_nonneg (l : List Task) :
    0 ≤ l.foldl (fun a u => max a u.sorter) 0 := foldl_max_init_le l 0

theorem nextSorter_eq (today : List Task) (so : Int) :
    nextSorterForSortOrder today so =
      (today.filter fun t => clampSortOrder t.sortOrder = clampSortOrder so).foldl
        (fun a u => max a u.sorter) 0 + 1000 := by
  simp only [nextSorterForSortOrder, jsOr_zero]

/-- Helper: the assigned sorter strictly dominates every sorter already in the
target band. -/
theorem nextSorter_gt (today : List Task) (so : Int) (t : Task) (ht : t ∈ today)
    (hband : clampSortOrder t.sortOrder = clampSortOrder so) :
    t.sorter < nextSorterForSortOrder today so := by
  rw [nextSorter_eq]
  have : t.sorter ≤ (today.filter fun u => clampSortOrder u.sortOrder = clampSortOrder so).foldl
      (fun a u => max a u.sorter) 0 :=
    le_foldl_max _ 0 t (List.mem_filter.mpr ⟨ht, by simpa using hband⟩)
  omega

/-- Helper: an empty band yields the base sorter 1000. -/
theorem nextSorter_of_empty_band (today : List Task) (so : Int)
    (h : (today.filter fun t => clampSortOrder t.sortOrder = clampSortOrder so) = []) :
    nextSorterForSortOrder today so = 1000 := by
  rw [nextSorter_eq, h]
  rfl

/-- Helper: when the band has a maximal sorter `M ≥ 0`, the assigned sorter is
exactly `M + 1000`. -/
theorem nextSorter_of_attained_max (today : List Task) (so M : Int) (hM : 0 ≤ M)
    (hmem : ∃ t ∈ today, clampSortOrder t.sortOrder = clampSortOrder so ∧ t.sorter = M)
    (hub : ∀ t ∈ today, clampSortOrder t.sortOrder = clampSortOrder so → t.sorter ≤ M) :
    nextSorterForSortOrder today so = M + 1000 := by
  rw [nextSorter_eq]
  rcases hmem with ⟨t, ht, hband, hs⟩
  have h1 : M ≤ (today.filter fun u => clampSortOrder u.sortOrder = clampSortOrder so).foldl
      (fun a u => max a u.sorter) 0 := by
    rw [← hs]
    exact le_foldl_max _ 0 t (List.mem_filter.mpr ⟨ht, by simpa using hband⟩)
  have h2 : (today.filter fun u => clampSortOrder u.sortOrder = clampSortOrder so).foldl
      (fun a u => max a u.sorter) 0 ≤ M := by
    rcases foldl_max_cases (today.filter fun u => clampSortOrder u.sortOrder = clampSortOrder so) 0
      with h | ⟨u, hu, h⟩
    · omega
    · rw [h]
      have hu' := List.mem_filter.mp hu
      exact hub u hu'.1 (by simpa using hu'.2)
  omega

/-! ## C7: the sorter issued by `assign` -/

/-- C7 counterexample: a Today list whose band-5 sorters are all negative.  The
claimed formula gives `-3000 + 1000 = -2000`, but the code folds with
`Math.max` starting from `0`, so it returns `1000`. -/
theorem claim_C7_counterexample :
    (List.filter (fun t => clampSortOrder t.sortOrder = clampSortOrder 5)
      [{ blankTask with id := "a", sortOrder := 5, sorter := -3000 }] =
      [{ blankTask with id := "a", sortOrder := 5, sorter := -3000 }]) ∧
    nextSorterForSortOrder
      [{ blankTask with id := "a", sortOrder := 5, sorter := -3000 }] 5 = 1000 ∧
    (1000 : Int) ≠ -3000 + 1000 := by
  refine ⟨by decide, by decide, by decide⟩

/-- C7 (amended): `assign(b, today)` returns the band's maximal sorter clamped
below at 0, plus 1000 — i.e. `max + 1000` whenever the band maximum is
non-negative (in particular whenever the band holds any non-negative sorter),
and `1000` when the band is empty; in every case the returned value is
strictly greater than each sorter already present in the band. -/
theorem claim_C7_amended (today : List Task) (b : Int) :
    (∀ t ∈ today, clampSortOrder t.sortOrder = clampSortOrder b →
      t.sorter < nextSorterForSortOrder today b) ∧
    ((today.filter fun t => clampSortOrder t.sortOrder = clampSortOrder b) = [] →
      nextSorterForSortOrder today b = 1000) ∧
    (∀ M : Int, 0 ≤ M →
      (∃ t ∈ today, clampSortOrder t.sortOrder = clampSortOrder b ∧ t.sorter = M) →
      (∀ t ∈ today, clampSortOrder t.sortOrder = clampSortOrder b → t.sorter ≤ M) →
      nextSorterForSortOrder today b = M + 1000) :=
  ⟨fun t ht hband => nextSorter_gt today b t ht hband,
    nextSorter_of_empty_band today b,
    fun M hM hmem hub => nextSorter_of_attained_max today b M hM hmem hub⟩

/-- Witness for the amended C7: a band whose maximum sorter is 2000 gets 3000
next, strictly above both existing band members. -/
theorem claim_C7_amended_witness :
    nextSorterForSortOrder [{ blankTask with id := "a", sortOrder := 3, sorter := 2000 },
      { blankTask with id := "b", sortOrder := 3, sorter := 1000 }] 3 = 2000 + 1000 :=
  (claim_C7_amended [{ blankTask with id := "a", sortOrder := 3, sorter := 2000 },
      { blankTask with id := "b", sortOrder := 3, sorter := 1000 }] 3).2.2 2000 (by decide)
    ⟨{ blankTask with id := "a", sortOrder := 3, sorter := 2000 }, by decide⟩
    (by decide)

/-! ## C4: restoring a task from the Removed view -/

/-- C4 counterexample: the Today list holds a band-10 task with sorter 5000 and
a band-24 task with sorter 2000.  Restoring a removed band-10 task assigns
sorter 3000 — issued from band 24 — not the 6000 the claim's
"existing band" rule would give. -/
theorem claim_C4_counterexample :
    (onBackFromRemoved
        [{ blankTask with id := "p", sortOrder := 10, sorter := 5000 },
          { blankTask with id := "q", sortOrder := 24, sorter := 2000 }]
        "2024-06-01" 7
        { blankTask with id := "r", sortOrder := 10, removed := true }).sorter = 3000 ∧
    nextSorterForSortOrder
        [{ blankTask with id := "p", sortOrder := 10, sorter := 5000 },
          { blankTask with id := "q", sortOrder := 24, sorter := 2000 }] 10 = 6000 ∧
    (3000 : Int) ≠ 6000 := by
  refine ⟨by decide, by decide, by decide⟩

/-- C4 (amended): `RestoreFromRemoved` sets `dueDate` to the reference date and
`removed` to `false`, keeps the task's own `sortOrder` band, and assigns a new
sorter computed from band 24 — the default band — regardless of the task's own
band: strictly above every band-24 sorter in the current Today list, `1000`
when band 24 is empty. -/
theorem claim_C4_amended (today : List Task) (base : String) (now : Int) (t : Task) :
    (onBackFromRemoved today base now t).dueDate = base ∧
    (onBackFromRemoved today base now t).removed = false ∧
    (onBackFromRemoved today base now t).sortOrder = t.sortOrder ∧
    (onBackFromRemoved today base now t).sorter = nextSorterForSortOrder today 24 ∧
    (∀ u ∈ today, clampSortOrder u.sortOrder = 24 →
      u.sorter < (onBackFromRemoved today base now t).sorter) ∧
    ((today.filter fun u => clampSortOrder u.sortOrder = 24) = [] →
      (onBackFromRemoved today base now t).sorter = 1000) := by
  have hc : clampSortOrder 24 = 24 := by decide
  refine ⟨rfl, rfl, rfl, rfl, ?_, ?_⟩
  · intro u hu hband
    exact nextSorter_gt today 24 u hu (by rw [hband, hc])
  · intro h
    exact nextSorter_of_empty_band today 24 (by rw [hc]; exact h)

/-- Witness for the amended C4 at the counterexample's inputs. -/
theorem claim_C4_amended_witness :
    (onBackFromRemoved
        [{ blankTask with id := "p", sortOrder := 10, sorter := 5000 },
          { blankTask with id := "q", sortOrder := 24, sorter := 2000 }]
        "2024-06-01" 7
        { blankTask with id := "r", sortOrder := 10, removed := true }).removed = false ∧
    ({ blankTask with id := "q", sortOrder := 24, sorter := 2000 } : Task).sorter <
      (onBackFromRemoved
        [{ blankTask with id := "p", sortOrder := 10, sorter := 5000 },
          { blankTask with id := "q", sortOrder := 24, sorter := 2000 }]
        "2024-06-01" 7
        { blankTask with id := "r", sortOrder := 10, removed := true }).sorter :=
  ⟨(claim_C4_amended [{ blankTask with id := "p", sortOrder := 10, sorter := 5000 },
      { blankTask with id := "q", sortOrder := 24, sorter := 2000 }] "2024-06-01" 7
      { blankTask with id := "r", sortOrder := 10, removed := true }).2.1,
    (claim_C4_amended [{ blankTask with id := "p", sortOrder := 10, sorter := 5000 },
      { blankTask with id := "q", sortOrder := 24, sorter := 2000 }] "2024-06-01" 7
      { blankTask with id := "r", sortOrder := 10, removed := true }).2.2.2.2.1
      { blankTask with id := "q", sortOrder := 24, sorter := 2000 }
      (by decide) (by decide)⟩

/-! ## C5: read-time normalization of drifted records -/

/-- C5 counterexample: a stored record with no `sortOrder` but a valid sorter
2000 is normalized to `sortOrder = round(2000/1000) = 2`, not to the claimed
default 24. -/
theorem claim_C5_counterexample :
    driftDoc.sortOrder = none ∧ (normalizeDoc driftDoc).sortOrder = 2 ∧ (2 : Int) ≠ 24 := by
  refine ⟨rfl, by decide, by decide⟩

/-- C5 (amended): on read, a record missing `sortOrder` gets a `sortOrder`
derived from its normalized sorter — `round(sorter / 1000)` clamped into
`[1, 24]`, with 24 when the rounded value is 0 (in particular 24 for the
old-schema case where the sorter fell back to a millisecond timestamp); the
result always lies in `[1, 24]`; a missing or non-positive sorter is derived
from `createdAtMs` (falling back to `updatedAtMs`, then 0); and a missing
`dueDate` defaults to the far-future sentinel `"9999-12-31"`. -/
theorem claim_C5_amended (d : RawDoc) :
    (d.sortOrder = none →
      (normalizeDoc d).sortOrder =
        min 24 (max 1 (jsOr (jsRoundDiv1000 (jsOr (normalizeDoc d).sorter 0)) 24))) ∧
    (1 ≤ (normalizeDoc d).sortOrder ∧ (normalizeDoc d).sortOrder ≤ 24) ∧
    (num d.sorter ≤ 0 →
      (normalizeDoc d).sorter =
        jsOr (normalizeDoc d).createdAtMs (jsOr (normalizeDoc d).updatedAtMs 0)) ∧
    (d.dueDate = none → (normalizeDoc d).dueDate = "9999-12-31") := by
  refine ⟨?_, ?_, ?_, ?_⟩
  · intro h
    simp only [normalizeDoc, h]
    norm_num [num]
  · simp only [normalizeDoc]
    split
    · constructor
      · exact le_min (by norm_num) (le_max_left 1 _)
      · exact min_le_left 24 _
    · omega
  · intro h
    simp only [normalizeDoc, if_pos h]
  · intro h
    simp only [normalizeDoc, h]
    rfl

/-- Witness for the amended C5 at the drifted record. -/
theorem claim_C5_amended_witness :
    (normalizeDoc driftDoc).sortOrder =
      min 24 (max 1 (jsOr (jsRoundDiv1000 (jsOr (normalizeDoc driftDoc).sorter 0)) 24)) ∧
    (normalizeDoc driftDoc).dueDate = "9999-12-31" :=
  ⟨(claim_C5_amended driftDoc).1 rfl, (claim_C5_amended driftDoc).2.2.2 rfl⟩


/-! ## Drag-and-drop reindexing -/

theorem perm_getD_cons_eraseIdx (l : List Task) :
    ∀ i : Nat, i < l.length → l.Perm (l.getD i blankTask :: l.eraseIdx i) := by
  induction l with
  | nil => intro i hi; simp at hi
  | cons a as ih =>
    intro i hi
    cases i with
    | zero => exact List.Perm.refl _
    | succ n =>
      have hn : n < as.length := by simpa using hi
      have h1 : (a :: as).Perm (a :: (as.getD n blankTask :: as.eraseIdx n)) :=
        (ih n hn).cons a
      refine h1.trans ?_
      exact List.Perm.swap (as.getD n blankTask) a (as.eraseIdx n)

theorem eraseIdx_length_of_lt (l : List Task) (i : Nat) (hi : i < l.length) :
    (l.eraseIdx i).length = l.length - 1 := by
  rw [List.length_eraseIdx]
  simp [hi]

theorem arrayMove_length (l : List Task) (i j : Nat) (hi : i < l.length)
    (hj : j < l.length) : (arrayMove l i j).length = l.length := by
  have he := eraseIdx_length_of_lt l i hi
  have h2 : j ≤ (l.eraseIdx i).length := by omega
  rw [arrayMove, List.length_insertIdx _ _ h2]
  omega

theorem arrayMove_perm (l : List Task) (i j : Nat) (hi : i < l.length)
    (hj : j < l.length) : (arrayMove l i j).Perm l := by
  have he := eraseIdx_length_of_lt l i hi
  have h2 : j ≤ (l.eraseIdx i).length := by omega
  have hp1 := List.perm_insertIdx (l.getD i blankTask) (l.eraseIdx i) h2
  exact (List.Perm.trans hp1 (perm_getD_cons_eraseIdx l i hi).symm)

theorem arrayMove_getD_self (l : List Task) (i j : Nat) (hi : i < l.length)
    (hj : j < l.length) : (arrayMove l i j).getD j blankTask = l.getD i blankTask := by
  have he := eraseIdx_length_of_lt l i hi
  have h2 : j ≤ (l.eraseIdx i).length := by omega
  have hml := arrayMove_length l i j hi hj
  rw [List.getD_eq_getElem _ _ (show j < (arrayMove l i j).length by omega)]
  exact List.getElem_insertIdx_self (l.eraseIdx i) (l.getD i blankTask) j h2

theorem mapIdx_map_fst (l : List Task) (f : Nat → Task → String × Int × Int) (k : Task → String)
    (hf : ∀ i t, (f i t).1 = k t) : (l.mapIdx f).map (fun p => p.1) = l.map k := by
  rw [List.mapIdx_eq_enum_map, List.map_map]
  have h1 : ((fun p : String × Int × Int => p.1) ∘ Function.uncurry f) =
      (fun p : Nat × Task => k p.2) := funext fun p => hf p.1 p.2
  rw [h1]
  conv_rhs => rw [← List.enum_map_snd l]
  rw [List.map_map]
  rfl

theorem mapIdx_map_sorter (l : List Task) (f : Nat → Task → String × Int × Int)
    (hf : ∀ i t, (f i t).2.1 = ((i : Int) + 1) * 1000) :
    (l.mapIdx f).map (fun p => p.2.1) =
      (List.range l.length).map (fun (i : Nat) => ((i : Int) + 1) * 1000) := by
  rw [List.mapIdx_eq_enum_map, List.map_map]
  have h1 : ((fun p : String × Int × Int => p.2.1) ∘ Function.uncurry f) =
      (fun p : Nat × Task => ((p.1 : Int) + 1) * 1000) := funext fun p => hf p.1 p.2
  rw [h1]
  conv_rhs => rw [← List.enum_map_fst l]
  rw [List.map_map]
  rfl

/-- C2: after a drag reorder the update rows carry sorters
`1000, 2000, …` in list order — a strictly increasing sequence with the `i`-th
row receiving `(i + 1) * 1000` — and the rows' id multiset (hence the id set
and the list length) is exactly that of the Today list before the call. -/
theorem claim_C2 (today : List Task) (oldIndex newIndex : Nat)
    (ho : oldIndex < today.length) (hn : newIndex < today.length) :
    ((dragUpdates today oldIndex newIndex).map fun p => p.2.1) =
      (List.range today.length).map (fun (i : Nat) => ((i : Int) + 1) * 1000) ∧
    (((dragUpdates today oldIndex newIndex).map fun p => p.2.1).Pairwise (· < ·)) ∧
    (((dragUpdates today oldIndex newIndex).map fun p => p.1).Perm
      (today.map fun t => t.id)) ∧
    (dragUpdates today oldIndex newIndex).length = today.length := by
  have hml := arrayMove_length today oldIndex newIndex ho hn
  have hperm := arrayMove_perm today oldIndex newIndex ho hn
  have hs : ((dragUpdates today oldIndex newIndex).map fun p => p.2.1) =
      (List.range today.length).map (fun (i : Nat) => ((i : Int) + 1) * 1000) := by
    rw [show dragUpdates today oldIndex newIndex =
        (arrayMove today oldIndex newIndex).mapIdx _ from rfl,
      mapIdx_map_sorter _ _ (fun i t => rfl), hml]
  refine ⟨hs, ?_, ?_, ?_⟩
  · rw [hs]
    refine List.Pairwise.map _ ?_ (List.pairwise_lt_range today.length)
    intro a b hab
    omega
  · rw [show dragUpdates today oldIndex newIndex =
        (arrayMove today oldIndex newIndex).mapIdx _ from rfl,
      mapIdx_map_fst _ _ (fun t => t.id) (fun i t => rfl)]
    exact hperm.map _
  · have h1 : (dragUpdates today oldIndex newIndex).length =
        (arrayMove today oldIndex newIndex).length := by
      rw [show dragUpdates today oldIndex newIndex =
          (arrayMove today oldIndex newIndex).mapIdx _ from rfl]
      exact List.length_mapIdx
    omega


theorem dragUpdates_getD (today : List Task) (oldIndex newIndex i : Nat)
    (ho : oldIndex < today.length) (hn : newIndex < today.length) (hi : i < today.length) :
    (dragUpdates today oldIndex newIndex).getD i ("", 0, 0) =
      (((arrayMove today oldIndex newIndex).getD i blankTask).id,
        ((i : Int) + 1) * 1000,
        if ((arrayMove today oldIndex newIndex).getD i blankTask).id =
            ((arrayMove today oldIndex newIndex).getD newIndex blankTask).id then
          dragInheritedSO today oldIndex newIndex
        else clampSortOrder ((arrayMove today oldIndex newIndex).getD i blankTask).sortOrder) := by
  have hml := arrayMove_length today oldIndex newIndex ho hn
  have hi2 : i < (arrayMove today oldIndex newIndex).length := by omega
  have h1 : i < (dragUpdates today oldIndex newIndex).length := by
    rw [show dragUpdates today oldIndex newIndex =
        (arrayMove today oldIndex newIndex).mapIdx _ from rfl, List.length_mapIdx]
    exact hi2
  rw [List.getD_eq_getElem _ _ h1, List.getD_eq_getElem _ _ hi2]
  exact List.getElem_mapIdx

/-- C3: in a drag reorder, the slot at the target index holds the dragged
task; that moved item's new `sortOrder` is its new previous neighbour's
`sortOrder` (the new next neighbour's when dropped at the head); every other
row keeps its task's `sortOrder` unchanged; and on a one-element Today list
`onDragEnd` issues no update at all (so the lone task's `sortOrder` is
unchanged).  The `sortOrder` range hypothesis is the invariant `listTasks`
guarantees on every task it returns. -/
theorem claim_C3 (today : List Task) (oldIndex newIndex : Nat)
    (ho : oldIndex < today.length) (hn : newIndex < today.length)
    (hne : oldIndex ≠ newIndex)
    (hrange : ∀ t ∈ today, 1 ≤ t.sortOrder ∧ t.sortOrder ≤ 24)
    (hnd : (today.map fun t => t.id).Nodup) :
    ((arrayMove today oldIndex newIndex).getD newIndex blankTask =
      today.getD oldIndex blankTask) ∧
    (0 < newIndex →
      ((dragUpdates today oldIndex newIndex).getD newIndex ("", 0, 0)).2.2 =
        ((arrayMove today oldIndex newIndex).getD (newIndex - 1) blankTask).sortOrder) ∧
    (newIndex = 0 →
      ((dragUpdates today oldIndex newIndex).getD newIndex ("", 0, 0)).2.2 =
        ((arrayMove today oldIndex newIndex).getD 1 blankTask).sortOrder) ∧
    (∀ i : Nat, i < today.length → i ≠ newIndex →
      ((dragUpdates today oldIndex newIndex).getD i ("", 0, 0)).1 =
        ((arrayMove today oldIndex newIndex).getD i blankTask).id ∧
      ((dragUpdates today oldIndex newIndex).getD i ("", 0, 0)).2.2 =
        ((arrayMove today oldIndex newIndex).getD i blankTask).sortOrder) ∧
    (∀ (l : List Task) (a o : String), l.length = 1 → onDragEnd l a o = none) := by
  have hlen2 : 2 ≤ today.length := by omega
  have hml := arrayMove_length today oldIndex newIndex ho hn
  have hperm := arrayMove_perm today oldIndex newIndex ho hn
  have hin : ∀ t ∈ arrayMove today oldIndex newIndex,
      clampSortOrder t.sortOrder = t.sortOrder := by
    intro t ht
    have hr := hrange t (hperm.mem_iff.mp ht)
    simp only [clampSortOrder]
    split_ifs <;> omega
  have hMmem : ∀ k, k < today.length →
      (arrayMove today oldIndex newIndex).getD k blankTask ∈
        arrayMove today oldIndex newIndex := by
    intro k hk
    rw [List.getD_eq_getElem _ _ (show k < (arrayMove today oldIndex newIndex).length by omega)]
    exact List.getElem_mem _
  have hndM : ((arrayMove today oldIndex newIndex).map fun t => t.id).Nodup :=
    ((hperm.map _).nodup_iff).mpr hnd
  have hMid_inj : ∀ k₁ k₂, k₁ < today.length → k₂ < today.length →
      ((arrayMove today oldIndex newIndex).getD k₁ blankTask).id =
        ((arrayMove today oldIndex newIndex).getD k₂ blankTask).id → k₁ = k₂ := by
    intro k1 k2 h1 h2 heq
    rw [List.getD_eq_getElem _ _ (show k1 < (arrayMove today oldIndex newIndex).length by omega),
      List.getD_eq_getElem _ _ (show k2 < (arrayMove today oldIndex newIndex).length by omega)]
      at heq
    have hb1 : k1 < ((arrayMove today oldIndex newIndex).map fun t => t.id).length := by
      rw [List.length_map]
      omega
    have hb2 : k2 < ((arrayMove today oldIndex newIndex).map fun t => t.id).length := by
      rw [List.length_map]
      omega
    have hmap : ((arrayMove today oldIndex newIndex).map fun t => t.id)[k1] =
        ((arrayMove today oldIndex newIndex).map fun t => t.id)[k2] := by
      rw [List.getElem_map, List.getElem_map]
      exact heq
    exact hndM.getElem_inj_iff.mp hmap
  refine ⟨arrayMove_getD_self today oldIndex newIndex ho hn, ?_, ?_, ?_, ?_⟩
  · intro hpos
    rw [dragUpdates_getD today oldIndex newIndex newIndex ho hn hn]
    simp only [if_pos rfl]
    simp only [dragInheritedSO, if_pos hpos]
    exact hin _ (hMmem (newIndex - 1) (by omega))
  · intro h0
    subst h0
    rw [dragUpdates_getD today oldIndex 0 0 ho hn hn]
    simp only [if_pos rfl]
    simp only [dragInheritedSO]
    rw [if_neg (lt_irrefl 0), if_pos (show 0 < (arrayMove today oldIndex 0).length - 1
      by omega)]
    exact hin _ (hMmem 1 (by omega))
  · intro i hi hineq
    rw [dragUpdates_getD today oldIndex newIndex i ho hn hi]
    refine ⟨rfl, ?_⟩
    rw [if_neg (fun heq => hineq (hMid_inj i newIndex hi hn heq))]
    exact hin _ (hMmem i hi)
  · intro l a o hl
    by_cases hao : a = o
    · simp [onDragEnd, hao]
    · rcases l with _ | ⟨t, _ | ⟨u, rest⟩⟩
      · simp at hl
      · simp only [onDragEnd, if_neg hao, List.map_cons, List.map_nil]
        by_cases h1 : t.id = a
        · by_cases h2 : t.id = o
          · exact absurd (h1 ▸ h2) hao
          · simp [List.findIdx?_cons, List.findIdx?_nil, h1, h2, hao]
        · simp [List.findIdx?_cons, List.findIdx?_nil, h1, hao]
      · simp at hl

/-- Witness for C3: the spec's scenario — Today list with bands `[1, 1, 3]`
and sorters `[1000, 2000, 1000]`, dragging the third item to index 1: the
moved item inherits band 1 from its new previous neighbour, the untouched
rows keep their bands. -/
theorem claim_C3_witness :
    ((dragUpdates [{ blankTask with id := "a", sortOrder := 1, sorter := 1000 },
        { blankTask with id := "b", sortOrder := 1, sorter := 2000 },
        { blankTask with id := "c", sortOrder := 3, sorter := 1000 }] 2 1).getD 1
      ("", 0, 0)).2.2 =
      ((arrayMove [{ blankTask with id := "a", sortOrder := 1, sorter := 1000 },
        { blankTask with id := "b", sortOrder := 1, sorter := 2000 },
        { blankTask with id := "c", sortOrder := 3, sorter := 1000 }] 2 1).getD 0
        blankTask).sortOrder ∧
    ((dragUpdates [{ blankTask with id := "a", sortOrder := 1, sorter := 1000 },
        { blankTask with id := "b", sortOrder := 1, sorter := 2000 },
        { blankTask with id := "c", sortOrder := 3, sorter := 1000 }] 2 1).getD 0
      ("", 0, 0)).2.2 =
      ((arrayMove [{ blankTask with id := "a", sortOrder := 1, sorter := 1000 },
        { blankTask with id := "b", sortOrder := 1, sorter := 2000 },
        { blankTask with id := "c", sortOrder := 3, sorter := 1000 }] 2 1).getD 0
        blankTask).sortOrder := by
  have h := claim_C3 [{ blankTask with id := "a", sortOrder := 1, sorter := 1000 },
    { blankTask with id := "b", sortOrder := 1, sorter := 2000 },
    { blankTask with id := "c", sortOrder := 3, sorter := 1000 }] 2 1
    (by decide) (by decide) (by decide) (by decide) (by decide)
  exact ⟨h.2.1 (by decide), (h.2.2.2.1 0 (by decide) (by decide)).2⟩

/-- Witness for C2: the spec's drag scenario (three tasks, third dropped at
index 1). -/
theorem claim_C2_witness :
    ((dragUpdates [{ blankTask with id := "a", sortOrder := 1, sorter := 1000 },
        { blankTask with id := "b", sortOrder := 1, sorter := 2000 },
        { blankTask with id := "c", sortOrder := 3, sorter := 1000 }] 2 1).map
      fun p => p.2.1) =
      (List.range 3).map (fun (i : Nat) => ((i : Int) + 1) * 1000) ∧
    (((dragUpdates [{ blankTask with id := "a", sortOrder := 1, sorter := 1000 },
        { blankTask with id := "b", sortOrder := 1, sorter := 2000 },
        { blankTask with id := "c", sortOrder := 3, sorter := 1000 }] 2 1).map
      fun p => p.1).Perm ["a", "b", "c"]) := by
  have h := claim_C2 [{ blankTask with id := "a", sortOrder := 1, sorter := 1000 },
    { blankTask with id := "b", sortOrder := 1, sorter := 2000 },
    { blankTask with id := "c", sortOrder := 3, sorter := 1000 }] 2 1
    (by decide) (by decide)
  exact ⟨by simpa using h.1, by simpa using h.2.2.1⟩


/-! ## C8: the swipe throw -/

theorem mapIdx_map_proj {β γ : Type} (l : List Task) (f : Nat → Task → β) (g : β → γ)
    (k : Task → γ) (hf : ∀ i t, g (f i t) = k t) : (l.mapIdx f).map g = l.map k := by
  rw [List.mapIdx_eq_enum_map, List.map_map]
  have h1 : (g ∘ Function.uncurry f) = (fun p : Nat × Task => k p.2) :=
    funext fun p => hf p.1 p.2
  rw [h1]
  conv_rhs => rw [← List.enum_map_snd l]
  rw [List.map_map]
  rfl

theorem mapIdx_getD {β : Type} (l : List Task) (f : Nat → Task → β) (dflt : β) (i : Nat)
    (hi : i < l.length) : (l.mapIdx f).getD i dflt = f i (l.getD i blankTask) := by
  rw [List.getD_eq_getElem _ _
      (show i < (l.mapIdx f).length by rw [List.length_mapIdx]; exact hi),
    List.getD_eq_getElem _ _ hi]
  exact List.getElem_mapIdx

theorem toISO_ne_empty (y m d : Int) : toISO y m d ≠ "" := by
  unfold toISO
  intro h
  have h3 := congrArg String.data h
  simp at h3

theorem ite_ne_empty (c : Prop) [Decidable c] (a b : String) (ha : a ≠ "") (hb : b ≠ "") :
    (if c then a else b) ≠ "" := by
  split <;> assumption

theorem addDaysYMD_ne_empty (y m d days : Int) : addDaysYMD y m d days ≠ "" :=
  ite_ne_empty _ _ _ (by decide) (toISO_ne_empty _ _ _)

theorem addDaysISO_ok (s : String) (n : Int) (y m d : Int) (hb : isISODate s = true)
    (hp : parseISO s = .ok (y, m, d)) : addDaysISO s n = .ok (addDaysYMD y m d n) := by
  rw [addDaysISO, if_pos hb, hp]
  rfl

theorem mapM_mapIdx_ok {β : Type} (l : List Task) :
    ∀ g : Nat → Task → β,
      ((l.mapIdx fun i t => (Except.ok (g i t) : Except String β)).mapM id) =
        .ok (l.mapIdx g) := by
  induction l with
  | nil => intro g; rfl
  | cons t l ih =>
    intro g
    rw [List.mapIdx_cons, List.mapIdx_cons, List.mapM_cons, ih fun i => g (i + 1)]
    rfl

theorem onThrowSwipeItems_ok (todayTasks : List Task) (selected : String → Bool)
    (base : String) (y m d : Int) (hb : isISODate base = true)
    (hp : parseISO base = .ok (y, m, d)) :
    onThrowSwipeItems todayTasks selected base =
      .ok ((todayTasks.filter fun t => selected t.id).mapIdx fun i t =>
        (t.id, addDaysYMD y m d ((i : Int) + 1 + 3))) := by
  unfold onThrowSwipeItems
  have h1 : (fun (i : Nat) (t : Task) =>
      (addDaysISO base ((i : Int) + 1 + 3)).map fun due => (t.id, due)) =
      (fun (i : Nat) (t : Task) =>
        (Except.ok (t.id, addDaysYMD y m d ((i : Int) + 1 + 3)) :
          Except String (String × String))) := by
    funext i t
    rw [addDaysISO_ok base ((i : Int) + 1 + 3) y m d hb hp]
    rfl
  rw [h1, mapM_mapIdx_ok]

theorem lookupLast_getD (l : List (String × String)) :
    ∀ i : Nat, i < l.length → (l.map Prod.fst).Nodup →
      lookupLast l (l.getD i ("", "")).1 = some (l.getD i ("", "")).2 := by
  induction l with
  | nil => intro i hi _; simp at hi
  | cons p l ih =>
    intro i hi hnd
    rw [List.map_cons, List.nodup_cons] at hnd
    cases i with
    | zero =>
      show lookupLast (p :: l) p.1 = some p.2
      unfold lookupLast
      rw [List.filterMap_cons]
      simp only [if_pos rfl]
      have hnil : (l.filterMap fun q => if q.1 = p.1 then some q.2 else none) = [] := by
        rw [List.filterMap_eq_nil_iff]
        intro q hq
        rw [if_neg]
        intro hc
        exact hnd.1 (hc ▸ List.mem_map_of_mem Prod.fst hq)
      rw [hnil]
      exact List.getLast?_singleton p.2
    | succ n =>
      have hn : n < l.length := by simpa using hi
      show lookupLast (p :: l) (l.getD n ("", "")).1 = some (l.getD n ("", "")).2
      have hne2 : (l.getD n ("", "")).1 ≠ p.1 := by
        intro hc
        apply hnd.1
        rw [← hc]
        refine List.mem_map_of_mem Prod.fst ?_
        rw [List.getD_eq_getElem _ _ hn]
        exact List.getElem_mem hn
      unfold lookupLast
      rw [List.filterMap_cons, if_neg fun hc => hne2 hc.symm]
      exact ih n hn hnd.2

theorem lookupLast_eq_none (l : List (String × String)) (x : String)
    (h : ∀ p ∈ l, p.1 ≠ x) : lookupLast l x = none := by
  unfold lookupLast
  rw [List.filterMap_eq_nil_iff.mpr fun p hp => if_neg (h p hp)]
  rfl

/-- C8: with a non-empty selection, the SWIPE throw builds, for the `i`-th
selected task in Today screen order (0-based), the due date
`addDays(R, i + 4)`; applied through `rescheduleTasksIndividually` with
`throwDelta = 1`, the selected tasks get exactly that `dueDate` and a
`throwCount` incremented by one, and every other task is untouched. -/
theorem claim_C8 (todayTasks tasks : List Task) (selected : String → Bool)
    (base : String) (y m d now : Int) (i j : Nat)
    (hb : isISODate base = true) (hp : parseISO base = .ok (y, m, d))
    (hids : ∀ t ∈ todayTasks, t.id ≠ "")
    (hnd : ((todayTasks.filter fun t => selected t.id).map fun t => t.id).Nodup)
    (hi : i < (todayTasks.filter fun t => selected t.id).length)
    (hj : j < tasks.length) :
    onThrowSwipeItems todayTasks selected base =
      .ok ((todayTasks.filter fun t => selected t.id).mapIdx fun k t =>
        (t.id, addDaysYMD y m d ((k : Int) + 4))) ∧
    ((tasks.getD j blankTask).id =
        ((todayTasks.filter fun t => selected t.id).getD i blankTask).id →
      ((rescheduleIndividuallyModel
          ((todayTasks.filter fun t => selected t.id).mapIdx fun k t =>
            (t.id, addDaysYMD y m d ((k : Int) + 4))) 1 now tasks).getD j
          blankTask).dueDate = addDaysYMD y m d ((i : Int) + 4) ∧
      ((rescheduleIndividuallyModel
          ((todayTasks.filter fun t => selected t.id).mapIdx fun k t =>
            (t.id, addDaysYMD y m d ((k : Int) + 4))) 1 now tasks).getD j
          blankTask).throwCount = (tasks.getD j blankTask).throwCount + 1) ∧
    ((∀ k : Nat, k < (todayTasks.filter fun t => selected t.id).length →
        (tasks.getD j blankTask).id ≠
          ((todayTasks.filter fun t => selected t.id).getD k blankTask).id) →
      (rescheduleIndividuallyModel
          ((todayTasks.filter fun t => selected t.id).mapIdx fun k t =>
            (t.id, addDaysYMD y m d ((k : Int) + 4))) 1 now tasks).getD j
        blankTask = tasks.getD j blankTask) := by
  set S := todayTasks.filter fun t => selected t.id with hS
  set ups := S.mapIdx fun k t => (t.id, addDaysYMD y m d ((k : Int) + 4)) with hups
  have hlups : ups.length = S.length := List.length_mapIdx
  have hSsub : ∀ t ∈ S, t ∈ todayTasks := fun t ht => (List.mem_filter.mp ht).1
  have hup_elem : ∀ k, k < S.length → ups.getD k ("", "") =
      ((S.getD k blankTask).id, addDaysYMD y m d ((k : Int) + 4)) := by
    intro k hk
    rw [hups, mapIdx_getD S _ ("", "") k hk]
  have hup_mem : ∀ p ∈ ups, ∃ k, ∃ hk : k < S.length,
      p = ((S.getD k blankTask).id, addDaysYMD y m d ((k : Int) + 4)) := by
    intro p hp
    rcases List.mem_iff_getElem.mp hp with ⟨k, hk, hpe⟩
    have hk2 : k < S.length := by omega
    refine ⟨k, hk2, ?_⟩
    rw [← hpe, ← List.getD_eq_getElem ups ("", "") hk, hup_elem k hk2]
  have hSid : ∀ k, k < S.length → (S.getD k blankTask).id ≠ "" := by
    intro k hk
    refine hids _ (hSsub _ ?_)
    rw [List.getD_eq_getElem _ _ hk]
    exact List.getElem_mem hk
  have hcl : (ups.filter fun p => p.1 ≠ "" ∧ p.2 ≠ "") = ups := by
    rw [List.filter_eq_self]
    intro p hp
    rcases hup_mem p hp with ⟨k, hk, hpe⟩
    subst hpe
    simp only [decide_eq_true_iff]
    exact ⟨hSid k hk, addDaysYMD_ne_empty _ _ _ _⟩
  have hnem : ups.isEmpty = false := by
    rcases hu : ups with _ | ⟨p, rest⟩
    · rw [hu] at hlups
      simp at hlups
      omega
    · rfl
  have hndups : (ups.map Prod.fst).Nodup := by
    rw [hups, mapIdx_map_proj S _ Prod.fst (fun t => t.id) fun k t => rfl]
    exact hnd
  have hres : rescheduleIndividuallyModel ups 1 now tasks = tasks.map fun t =>
      match lookupLast ups t.id with
      | some due =>
        { t with dueDate := due, throwCount := t.throwCount + 1, updatedAtMs := now }
      | none => t := by
    rw [rescheduleIndividuallyModel]
    simp only [hcl, hnem, Bool.false_eq_true, if_false]
    have hif : (if (1 : Int) = 0 then (0 : Int) else 1) = 1 := by norm_num
    simp only [hif]
  have hgetd : ∀ f : Task → Task, (tasks.map f).getD j blankTask =
      f (tasks.getD j blankTask) := by
    intro f
    rw [List.getD_eq_getElem tasks blankTask hj,
      List.getD_eq_getElem (tasks.map f) blankTask (by simpa using hj)]
    simp
  refine ⟨?_, ?_, ?_⟩
  · rw [onThrowSwipeItems_ok todayTasks selected base y m d hb hp]
    have h4 : (fun (i : Nat) (t : Task) => (t.id, addDaysYMD y m d ((i : Int) + 1 + 3))) =
        (fun (k : Nat) (t : Task) => (t.id, addDaysYMD y m d ((k : Int) + 4))) := by
      funext k t
      have h5 : ((k : Int) + 1 + 3) = ((k : Int) + 4) := by ring
      rw [h5]
    rw [h4]
  · intro heq
    have hlook : lookupLast ups (tasks.getD j blankTask).id =
        some (addDaysYMD y m d ((i : Int) + 4)) := by
      have h5 := lookupLast_getD ups i (by omega) hndups
      rw [hup_elem i hi] at h5
      rw [heq]
      exact h5
    rw [hres, hgetd, hlook]
    exact ⟨rfl, rfl⟩
  · intro hmiss
    have hlook : lookupLast ups (tasks.getD j blankTask).id = none := by
      refine lookupLast_eq_none ups _ fun p hp => ?_
      rcases hup_mem p hp with ⟨k, hk, hpe⟩
      subst hpe
      exact fun hc => hmiss k hk hc.symm
    rw [hres, hgetd, hlook]


/-- Witness for C8: the spec's scenario — three selected tasks `[a, b, c]` and
reference date `2024-06-01`; the second one (index 1) is thrown to
`2024-06-06` with its throw count going from 0 to 1. -/
theorem claim_C8_witness :
    ((rescheduleIndividuallyModel
        (([{ blankTask with id := "a" }, { blankTask with id := "b" },
            { blankTask with id := "c" }].filter fun _ => true).mapIdx fun k t =>
          (t.id, addDaysYMD 2024 6 1 ((k : Int) + 4))) 1 99
        [{ blankTask with id := "a" }, { blankTask with id := "b" },
          { blankTask with id := "c" }]).getD 1 blankTask).dueDate = "2024-06-06" ∧
    ((rescheduleIndividuallyModel
        (([{ blankTask with id := "a" }, { blankTask with id := "b" },
            { blankTask with id := "c" }].filter fun _ => true).mapIdx fun k t =>
          (t.id, addDaysYMD 2024 6 1 ((k : Int) + 4))) 1 99
        [{ blankTask with id := "a" }, { blankTask with id := "b" },
          { blankTask with id := "c" }]).getD 1 blankTask).throwCount = 1 := by
  have h := claim_C8 [{ blankTask with id := "a" }, { blankTask with id := "b" },
      { blankTask with id := "c" }]
    [{ blankTask with id := "a" }, { blankTask with id := "b" },
      { blankTask with id := "c" }]
    (fun _ => true) "2024-06-01" 2024 6 1 99 1 1
    (by decide) (by decide) (by decide) (by decide) (by decide) (by decide)
  have h2 := h.2.1 (by decide)
  exact ⟨h2.1.trans (by decide), h2.2.trans (by decide)⟩


theorem isLeap_iff (y : Int) :
    isLeap y = true ↔ ((y % 4 = 0 ∧ ¬ y % 100 = 0) ∨ y % 400 = 0) := by
  simp [isLeap]

theorem dayFromYear_succ (y : Int) :
    dayFromYear (y + 1) = dayFromYear y + (if isLeap y then 366 else 365) := by
  rcases hb : isLeap y with _ | _
  · have h1 : ¬ ((y % 4 = 0 ∧ ¬ y % 100 = 0) ∨ y % 400 = 0) := by
      intro hc
      rw [← isLeap_iff] at hc
      rw [hb] at hc
      cases hc
    simp only [if_false, Bool.false_eq_true]
    unfold dayFromYear
    push_neg at h1
    omega
  · have h1 : ((y % 4 = 0 ∧ ¬ y % 100 = 0) ∨ y % 400 = 0) := (isLeap_iff y).mp hb
    simp only [if_true]
    unfold dayFromYear
    omega

theorem dayFromYear_mono (y1 y2 : Int) (h : y1 ≤ y2) : dayFromYear y1 ≤ dayFromYear y2 := by
  unfold dayFromYear
  omega

theorem dayFromYear_step_le (y1 y2 : Int) (h : y1 < y2) :
    dayFromYear (y1 + 1) ≤ dayFromYear y2 := dayFromYear_mono _ _ (by omega)

theorem yearFromDay_bracket (z : Int) :
    dayFromYear (yearFromDay z) ≤ z ∧ z < dayFromYear (yearFromDay z + 1) := by
  simp only [yearFromDay]
  split_ifs with h1 h2
  · refine ⟨h1, ?_⟩
    unfold dayFromYear at *
    omega
  · refine ⟨h2, ?_⟩
    have h3 : 1970 + 400 * z / 146097 - 1 + 1 = 1970 + 400 * z / 146097 := by ring
    omega
  · refine ⟨?_, ?_⟩
    · unfold dayFromYear at *
      omega
    · have h3 : 1970 + 400 * z / 146097 - 1 + 1 = 1970 + 400 * z / 146097 := by ring
      rw [h3]
      omega

theorem yearFromDay_eq (y z : Int) (h1 : dayFromYear y ≤ z) (h2 : z < dayFromYear (y + 1)) :
    yearFromDay z = y := by
  rcases yearFromDay_bracket z with ⟨b1, b2⟩
  rcases lt_trichotomy (yearFromDay z) y with hc | hc | hc
  · have := dayFromYear_step_le _ _ hc
    omega
  · exact hc
  · have := dayFromYear_step_le _ _ hc
    omega


theorem daysInYear_eq (y : Int) :
    dayFromYear (y + 1) - dayFromYear y = (if isLeap y then 366 else 365) := by
  rw [dayFromYear_succ]
  ring

set_option maxRecDepth 4000 in
theorem month_char_bounded (L : Bool) :
    ∀ n ∈ List.range 366, ((n : Int) < (if L then 366 else 365) →
      (0 ≤ monthFromYearDay L (n : Int) ∧ monthFromYearDay L (n : Int) ≤ 11 ∧
        daysBeforeMonth L (monthFromYearDay L (n : Int)) ≤ (n : Int) ∧
        (n : Int) < daysBeforeMonth L (monthFromYearDay L (n : Int) + 1) ∧
        (n : Int) - daysBeforeMonth L (monthFromYearDay L (n : Int)) ≤ 30)) := by
  cases L <;> decide

theorem month_char (L : Bool) (yd : Int) (h0 : 0 ≤ yd)
    (h1 : yd < (if L then 366 else 365)) :
    0 ≤ monthFromYearDay L yd ∧ monthFromYearDay L yd ≤ 11 ∧
    daysBeforeMonth L (monthFromYearDay L yd) ≤ yd ∧
    yd < daysBeforeMonth L (monthFromYearDay L yd + 1) ∧
    yd - daysBeforeMonth L (monthFromYearDay L yd) ≤ 30 := by
  have hn : ((yd.toNat : Int)) = yd := Int.toNat_of_nonneg h0
  have h366 : yd < 366 := by
    cases L
    · simp only [Bool.false_eq_true, if_false] at h1
      omega
    · simp only [if_true] at h1
      omega
  have hmem : yd.toNat ∈ List.range 366 := by
    rw [List.mem_range]
    omega
  have h3 := month_char_bounded L yd.toNat hmem (by rw [hn]; exact h1)
  rw [hn] at h3
  exact h3

theorem daysBeforeMonth_mono_bounded (L : Bool) :
    ∀ a ∈ List.range 13, ∀ b ∈ List.range 13, a ≤ b →
      daysBeforeMonth L (a : Int) ≤ daysBeforeMonth L (b : Int) := by
  cases L <;> decide

theorem daysBeforeMonth_mono (L : Bool) (a b : Int) (h0 : 0 ≤ a) (h1 : b ≤ 12)
    (hab : a ≤ b) : daysBeforeMonth L a ≤ daysBeforeMonth L b := by
  have ha : ((a.toNat : Int)) = a := Int.toNat_of_nonneg h0
  have hb : ((b.toNat : Int)) = b := Int.toNat_of_nonneg (by omega)
  have h3 := daysBeforeMonth_mono_bounded L a.toNat (by rw [List.mem_range]; omega)
    b.toNat (by rw [List.mem_range]; omega) (by omega)
  rw [ha, hb] at h3
  exact h3

theorem daysBeforeMonth_nonneg_bounded (L : Bool) :
    ∀ a ∈ List.range 13, (0 : Int) ≤ daysBeforeMonth L (a : Int) := by
  cases L <;> decide

theorem daysBeforeMonth_nonneg (L : Bool) (a : Int) (h0 : 0 ≤ a) (h1 : a ≤ 12) :
    0 ≤ daysBeforeMonth L a := by
  have ha : ((a.toNat : Int)) = a := Int.toNat_of_nonneg h0
  have h3 := daysBeforeMonth_nonneg_bounded L a.toNat (by rw [List.mem_range]; omega)
  rw [ha] at h3
  exact h3

theorem daysBeforeMonth_twelve (L : Bool) :
    daysBeforeMonth L 12 = (if L then (366 : Int) else 365) := by
  cases L <;> rfl

theorem month_unique (L : Bool) (yd k : Int) (hk0 : 0 ≤ k) (hk1 : k ≤ 11)
    (h1 : daysBeforeMonth L k ≤ yd) (h2 : yd < daysBeforeMonth L (k + 1)) :
    monthFromYearDay L yd = k := by
  have hge : 0 ≤ yd := le_trans (daysBeforeMonth_nonneg L k hk0 (by omega)) h1
  have hlt : yd < (if L then (366 : Int) else 365) := by
    rw [← daysBeforeMonth_twelve]
    exact lt_of_lt_of_le h2 (daysBeforeMonth_mono L (k + 1) 12 (by omega) (le_refl 12)
      (by omega))
  rcases month_char L yd hge hlt with ⟨c0, c1, c2, c3, _⟩
  rcases lt_trichotomy (monthFromYearDay L yd) k with hc | hc | hc
  · have := daysBeforeMonth_mono L (monthFromYearDay L yd + 1) k (by omega) (by omega)
      (by omega)
    omega
  · exact hc
  · have := daysBeforeMonth_mono L (k + 1) (monthFromYearDay L yd) (by omega) (by omega)
      (by omega)
    omega

theorem makeDay_eq (y m d : Int) (h0 : 0 ≤ m) (h1 : m ≤ 11) :
    makeDay y m d = dayFromYear y + daysBeforeMonth (isLeap y) m + d - 1 := by
  simp only [makeDay]
  have h2 : m / 12 = 0 := by omega
  have h3 : m % 12 = m := by omega
  have h4 : y + (0 : Int) = y := by ring
  rw [h2, h3, h4]


theorem civil_spec (z : Int) :
    1 ≤ (civilFromDays z).2.1 ∧ (civilFromDays z).2.1 ≤ 12 ∧
    1 ≤ (civilFromDays z).2.2 ∧ (civilFromDays z).2.2 ≤ 31 ∧
    (civilFromDays z).2.2 ≤
      daysBeforeMonth (isLeap (civilFromDays z).1) (civilFromDays z).2.1 -
        daysBeforeMonth (isLeap (civilFromDays z).1) ((civilFromDays z).2.1 - 1) ∧
    makeDay (civilFromDays z).1 ((civilFromDays z).2.1 - 1) (civilFromDays z).2.2 = z := by
  rcases yearFromDay_bracket z with ⟨b1, b2⟩
  have hyd0 : 0 ≤ z - dayFromYear (yearFromDay z) := by omega
  have hyd1 : z - dayFromYear (yearFromDay z) <
      (if isLeap (yearFromDay z) then 366 else 365) := by
    have hs := dayFromYear_succ (yearFromDay z)
    omega
  rcases month_char (isLeap (yearFromDay z)) (z - dayFromYear (yearFromDay z)) hyd0 hyd1
    with ⟨c0, c1, c2, c3, c4⟩
  have hciv : civilFromDays z = (yearFromDay z,
      monthFromYearDay (isLeap (yearFromDay z)) (z - dayFromYear (yearFromDay z)) + 1,
      (z - dayFromYear (yearFromDay z)) -
        daysBeforeMonth (isLeap (yearFromDay z))
          (monthFromYearDay (isLeap (yearFromDay z)) (z - dayFromYear (yearFromDay z))) + 1) :=
    rfl
  rw [hciv]
  dsimp only
  have he : monthFromYearDay (isLeap (yearFromDay z)) (z - dayFromYear (yearFromDay z)) + 1 - 1 =
      monthFromYearDay (isLeap (yearFromDay z)) (z - dayFromYear (yearFromDay z)) := by ring
  refine ⟨by omega, by omega, by omega, by omega, ?_, ?_⟩
  · rw [he]
    omega
  · rw [he, makeDay_eq _ _ _ c0 c1]
    omega

theorem civil_makeDay (y m d : Int) (hm0 : 1 ≤ m) (hm1 : m ≤ 12) (hd0 : 1 ≤ d)
    (hd1 : d ≤ daysBeforeMonth (isLeap y) m - daysBeforeMonth (isLeap y) (m - 1)) :
    civilFromDays (makeDay y (m - 1) d) = (y, m, d) := by
  have hmk := makeDay_eq y (m - 1) d (by omega) (by omega)
  have hb0 : 0 ≤ daysBeforeMonth (isLeap y) (m - 1) :=
    daysBeforeMonth_nonneg _ _ (by omega) (by omega)
  have hmono : daysBeforeMonth (isLeap y) m ≤ daysBeforeMonth (isLeap y) 12 :=
    daysBeforeMonth_mono _ m 12 (by omega) le_rfl (by omega)
  have h12 := daysBeforeMonth_twelve (isLeap y)
  have hsucc := dayFromYear_succ y
  have hbr1 : dayFromYear y ≤ makeDay y (m - 1) d := by rw [hmk]; omega
  have hbr2 : makeDay y (m - 1) d < dayFromYear (y + 1) := by
    rcases hL : isLeap y with _ | _ <;>
      simp only [hL, Bool.false_eq_true, if_false, if_true]
        at h12 hsucc hd1 hmono hb0 hmk <;>
      omega
  have hYr : yearFromDay (makeDay y (m - 1) d) = y := yearFromDay_eq y _ hbr1 hbr2
  have hyd : makeDay y (m - 1) d - dayFromYear y =
      daysBeforeMonth (isLeap y) (m - 1) + d - 1 := by
    rw [hmk]
    ring
  have hm1e : m - 1 + 1 = m := by ring
  have hmu : monthFromYearDay (isLeap y) (daysBeforeMonth (isLeap y) (m - 1) + d - 1) =
      m - 1 := by
    refine month_unique (isLeap y) _ (m - 1) (by omega) (by omega) (by omega) ?_
    rw [hm1e]
    omega
  have hciv : civilFromDays (makeDay y (m - 1) d) = (yearFromDay (makeDay y (m - 1) d),
      monthFromYearDay (isLeap (yearFromDay (makeDay y (m - 1) d)))
        (makeDay y (m - 1) d - dayFromYear (yearFromDay (makeDay y (m - 1) d))) + 1,
      (makeDay y (m - 1) d - dayFromYear (yearFromDay (makeDay y (m - 1) d))) -
        daysBeforeMonth (isLeap (yearFromDay (makeDay y (m - 1) d)))
          (monthFromYearDay (isLeap (yearFromDay (makeDay y (m - 1) d)))
            (makeDay y (m - 1) d - dayFromYear (yearFromDay (makeDay y (m - 1) d)))) + 1) :=
    rfl
  rw [hciv, hYr, hyd, hmu]
  simp only [Prod.mk.injEq]
  refine ⟨trivial, by omega, by omega⟩


theorem natDigitsAux_eq (n : Nat) :
    ∀ f1 f2, n ≤ f1 → n ≤ f2 → natDigitsAux f1 n = natDigitsAux f2 n := by
  induction n using Nat.strong_induction_on with
  | _ n ih =>
    intro f1 f2 h1 h2
    match f1, f2 with
    | 0, 0 => rfl
    | 0, f2 + 1 =>
      have hn : n = 0 := by omega
      subst hn
      simp [natDigitsAux]
    | f1 + 1, 0 =>
      have hn : n = 0 := by omega
      subst hn
      simp [natDigitsAux]
    | f1 + 1, f2 + 1 =>
      by_cases h : n < 10
      · simp [natDigitsAux, h]
      · simp only [natDigitsAux, if_neg h]
        rw [ih (n / 10) (by omega) f1 f2 (by omega) (by omega)]

theorem natDigits_lt (n : Nat) (h : n < 10) : natDigits n = [digitChar n] := by
  unfold natDigits
  cases n with
  | zero => rfl
  | succ k => simp [natDigitsAux, h]

theorem natDigits_ge (n : Nat) (h : 10 ≤ n) :
    natDigits n = natDigits (n / 10) ++ [digitChar (n % 10)] := by
  unfold natDigits
  obtain ⟨k, rfl⟩ : ∃ k, n = k + 1 := ⟨n - 1, by omega⟩
  simp only [natDigitsAux, if_neg (show ¬ k + 1 < 10 by omega)]
  rw [natDigitsAux_eq ((k + 1) / 10) k ((k + 1) / 10) (by omega) (by omega)]

theorem digitChar_isDigit (k : Nat) (h : k < 10) : (digitChar k).isDigit = true := by
  interval_cases k <;> decide

theorem digitVal_digitChar (k : Nat) (h : k < 10) : digitVal (digitChar k) = (k : Int) := by
  interval_cases k <;> decide

theorem natDigits4 (n : Nat) (h0 : 1000 ≤ n) (h1 : n ≤ 9999) :
    natDigits n = [digitChar (n / 1000), digitChar (n / 100 % 10),
      digitChar (n / 10 % 10), digitChar (n % 10)] := by
  have e1 : n / 10 / 10 = n / 100 := by omega
  have e2 : n / 100 / 10 = n / 1000 := by omega
  have e3 : n / 10 % 10 = n / 10 % 10 := rfl
  rw [natDigits_ge n (by omega), natDigits_ge (n / 10) (by omega), e1,
    natDigits_ge (n / 100) (by omega), e2, natDigits_lt (n / 1000) (by omega)]
  simp

theorem natDigits2 (n : Nat) (h0 : 10 ≤ n) (h1 : n ≤ 99) :
    natDigits n = [digitChar (n / 10), digitChar (n % 10)] := by
  rw [natDigits_ge n (by omega), natDigits_lt (n / 10) (by omega)]
  rfl

theorem intStr_nonneg (n : Int) (h : 0 ≤ n) : intStr n = natDigits n.toNat := by
  unfold intStr
  rw [if_neg (by omega)]

theorem pad2_small (m : Int) (h0 : 0 ≤ m) (h1 : m < 10) :
    pad2 m = ['0', digitChar m.toNat] := by
  simp only [pad2]
  rw [intStr_nonneg m h0, natDigits_lt m.toNat (by omega)]
  rfl

theorem pad2_large (m : Int) (h0 : 10 ≤ m) (h1 : m ≤ 99) :
    pad2 m = [digitChar (m.toNat / 10), digitChar (m.toNat % 10)] := by
  simp only [pad2]
  rw [intStr_nonneg m (by omega), natDigits2 m.toNat (by omega) (by omega)]
  rfl

theorem pad2_digits (m : Int) (h0 : 1 ≤ m) (h1 : m ≤ 99) :
    ∃ c1 c2, pad2 m = [c1, c2] ∧ c1.isDigit = true ∧ c2.isDigit = true ∧
      10 * digitVal c1 + digitVal c2 = m := by
  rcases lt_or_le m 10 with h | h
  · refine ⟨'0', digitChar m.toNat, pad2_small m (by omega) h, by decide,
      digitChar_isDigit _ (by omega), ?_⟩
    rw [digitVal_digitChar _ (by omega)]
    have h2 : digitVal '0' = 0 := by decide
    rw [h2]
    omega
  · refine ⟨digitChar (m.toNat / 10), digitChar (m.toNat % 10), pad2_large m h h1,
      digitChar_isDigit _ (by omega), digitChar_isDigit _ (by omega), ?_⟩
    rw [digitVal_digitChar _ (by omega), digitVal_digitChar _ (by omega)]
    omega

theorem intStr4_digits (y : Int) (h0 : 1000 ≤ y) (h1 : y ≤ 9999) :
    ∃ c1 c2 c3 c4, intStr y = [c1, c2, c3, c4] ∧ c1.isDigit = true ∧
      c2.isDigit = true ∧ c3.isDigit = true ∧ c4.isDigit = true ∧
      1000 * digitVal c1 + 100 * digitVal c2 + 10 * digitVal c3 + digitVal c4 = y := by
  refine ⟨digitChar (y.toNat / 1000), digitChar (y.toNat / 100 % 10),
    digitChar (y.toNat / 10 % 10), digitChar (y.toNat % 10), ?_,
    digitChar_isDigit _ (by omega), digitChar_isDigit _ (by omega),
    digitChar_isDigit _ (by omega), digitChar_isDigit _ (by omega), ?_⟩
  · rw [intStr_nonneg y (by omega), natDigits4 y.toNat (by omega) (by omega)]
  · rw [digitVal_digitChar _ (by omega), digitVal_digitChar _ (by omega),
      digitVal_digitChar _ (by omega), digitVal_digitChar _ (by omega)]
    omega

theorem parse_toISO (y m d : Int) (hy0 : 1000 ≤ y) (hy1 : y ≤ 9999) (hm0 : 1 ≤ m)
    (hm1 : m ≤ 12) (hd0 : 1 ≤ d) (hd1 : d ≤ 31) :
    isISODate (toISO y m d) = true ∧ parseISO (toISO y m d) = .ok (y, m, d) := by
  rcases intStr4_digits y hy0 hy1 with ⟨y1, y2, y3, y4, hye, hy1d, hy2d, hy3d, hy4d, hyv⟩
  rcases pad2_digits m hm0 (by omega) with ⟨m1, m2, hme, hm1d, hm2d, hmv⟩
  rcases pad2_digits d hd0 (by omega) with ⟨d1, d2, hde, hd1d, hd2d, hdv⟩
  have hdata : (toISO y m d).data =
      [y1, y2, y3, y4, '-', m1, m2, '-', d1, d2] := by
    unfold toISO
    rw [hye, hme, hde]
    rfl
  constructor
  · unfold isISODate
    rw [hdata]
    simp [hy1d, hy2d, hy3d, hy4d, hm1d, hm2d, hd1d, hd2d]
  · unfold parseISO
    rw [hdata]
    simp only [hy1d, hy2d, hy3d, hy4d, hm1d, hm2d, hd1d, hd2d, Bool.and_self,
      beq_self_eq_true, Bool.and_true, Bool.true_and, if_pos]
    simp only [Except.ok.injEq, Prod.mk.injEq]
    omega


theorem makeDay_add_days (y m d n : Int) : makeDay y m (d + n) = makeDay y m d + n := by
  simp only [makeDay]
  ring

theorem daysBeforeMonth_gap_bounded (L : Bool) :
    ∀ a ∈ List.range 12, daysBeforeMonth L ((a : Int) + 1) - daysBeforeMonth L (a : Int) ≤ 31 := by
  cases L <;> decide

theorem daysBeforeMonth_gap31 (L : Bool) (m : Int) (h0 : 1 ≤ m) (h1 : m ≤ 12) :
    daysBeforeMonth L m - daysBeforeMonth L (m - 1) ≤ 31 := by
  have h3 := daysBeforeMonth_gap_bounded L (m - 1).toNat (by rw [List.mem_range]; omega)
  have e1 : (((m - 1).toNat : Int)) = m - 1 := Int.toNat_of_nonneg (by omega)
  rw [e1] at h3
  have e2 : m - 1 + 1 = m := by ring
  rw [e2] at h3
  exact h3

theorem addDaysYMD_eq (y m d n : Int) (hy : 100 ≤ y) (hm0 : 1 ≤ m) (hm1 : m ≤ 12)
    (hd0 : 1 ≤ d)
    (hd1 : d ≤ daysBeforeMonth (isLeap y) m - daysBeforeMonth (isLeap y) (m - 1))
    (hclip : (makeDay y (m - 1) d + n).natAbs ≤ 100000000) :
    addDaysYMD y m d n =
      toISO (civilFromDays (makeDay y (m - 1) d + n)).1
        (civilFromDays (makeDay y (m - 1) d + n)).2.1
        (civilFromDays (makeDay y (m - 1) d + n)).2.2 := by
  have hyr : (if 0 ≤ y ∧ y ≤ 99 then 1900 + y else y) = y := if_neg (by omega)
  simp only [addDaysYMD, hyr]
  rw [civil_makeDay y m d hm0 hm1 hd0 hd1]
  dsimp only
  rw [makeDay_add_days]
  rw [if_neg (by omega)]

theorem dayNumber_bounds (z : Int) (h0 : 1000 ≤ yearFromDay z)
    (h1 : yearFromDay z ≤ 9999) : z.natAbs ≤ 100000000 := by
  rcases yearFromDay_bracket z with ⟨b1, b2⟩
  have hlo := dayFromYear_mono 1000 (yearFromDay z) (by omega)
  have hhi := dayFromYear_mono (yearFromDay z + 1) 10000 (by omega)
  have hv1 : dayFromYear 1000 = -354285 := by decide
  have hv2 : dayFromYear 10000 = 2932897 := by decide
  omega

/-- C9 counterexample: shifting `9999-12-31` forward one day and back one day
does not return `9999-12-31`: the intermediate value formats as
`"10000-01-01"`, which fails the `\d{4}-\d{2}-\d{2}` check, so the second
`addDaysISO` call throws. -/
theorem claim_C9_counterexample :
    ((addDaysISO "9999-12-31" 1).bind fun s => addDaysISO s (-1)) =
      .error "Invalid baseISO: 10000-01-01" ∧
    ((addDaysISO "9999-12-31" 1).bind fun s => addDaysISO s (-1)) ≠
      .ok "9999-12-31" := by
  refine ⟨by decide, by decide⟩

/-- C9 (amended): for every valid calendar date `y-m-d` whose year has four
digits and every integer `n` such that the shifted date's year still has four
digits, `addDays(addDays(d, n), -n) = d`. -/
theorem claim_C9_amended (y m d n : Int) (hy0 : 1000 ≤ y) (hy1 : y ≤ 9999)
    (hm0 : 1 ≤ m) (hm1 : m ≤ 12) (hd0 : 1 ≤ d)
    (hd1 : d ≤ daysBeforeMonth (isLeap y) m - daysBeforeMonth (isLeap y) (m - 1))
    (hy2 : 1000 ≤ (civilFromDays (makeDay y (m - 1) d + n)).1)
    (hy3 : (civilFromDays (makeDay y (m - 1) d + n)).1 ≤ 9999) :
    (addDaysISO (toISO y m d) n).bind (fun s => addDaysISO s (-n)) =
      .ok (toISO y m d) := by
  have hgap := daysBeforeMonth_gap31 (isLeap y) m hm0 hm1
  rcases parse_toISO y m d hy0 hy1 hm0 hm1 hd0 (by omega) with ⟨hiso, hparse⟩
  rcases civil_spec (makeDay y (m - 1) d + n) with ⟨cm0, cm1, cd0, cd1, cgap, cmk⟩
  have hYeq : (civilFromDays (makeDay y (m - 1) d + n)).1 =
      yearFromDay (makeDay y (m - 1) d + n) := rfl
  have hclip1 : (makeDay y (m - 1) d + n).natAbs ≤ 100000000 :=
    dayNumber_bounds _ (by rw [← hYeq]; exact hy2) (by rw [← hYeq]; exact hy3)
  have hc0 : civilFromDays (makeDay y (m - 1) d) = (y, m, d) :=
    civil_makeDay y m d hm0 hm1 hd0 hd1
  have hY0 : yearFromDay (makeDay y (m - 1) d) = y := by
    have : (civilFromDays (makeDay y (m - 1) d)).1 = y := by rw [hc0]
    exact this
  have hclip0 : (makeDay y (m - 1) d).natAbs ≤ 100000000 :=
    dayNumber_bounds _ (by omega) (by omega)
  have step1 : addDaysISO (toISO y m d) n = .ok (addDaysYMD y m d n) :=
    addDaysISO_ok _ _ _ _ _ hiso hparse
  have step2 : addDaysYMD y m d n =
      toISO (civilFromDays (makeDay y (m - 1) d + n)).1
        (civilFromDays (makeDay y (m - 1) d + n)).2.1
        (civilFromDays (makeDay y (m - 1) d + n)).2.2 :=
    addDaysYMD_eq y m d n (by omega) hm0 hm1 hd0 hd1 hclip1
  rcases parse_toISO (civilFromDays (makeDay y (m - 1) d + n)).1
      (civilFromDays (makeDay y (m - 1) d + n)).2.1
      (civilFromDays (makeDay y (m - 1) d + n)).2.2
      hy2 hy3 cm0 cm1 cd0 cd1 with ⟨hiso2, hparse2⟩
  have step3 : addDaysISO (toISO (civilFromDays (makeDay y (m - 1) d + n)).1
      (civilFromDays (makeDay y (m - 1) d + n)).2.1
      (civilFromDays (makeDay y (m - 1) d + n)).2.2) (-n) =
      .ok (addDaysYMD (civilFromDays (makeDay y (m - 1) d + n)).1
        (civilFromDays (makeDay y (m - 1) d + n)).2.1
        (civilFromDays (makeDay y (m - 1) d + n)).2.2 (-n)) :=
    addDaysISO_ok _ _ _ _ _ hiso2 hparse2
  have step4 : addDaysYMD (civilFromDays (makeDay y (m - 1) d + n)).1
      (civilFromDays (makeDay y (m - 1) d + n)).2.1
      (civilFromDays (makeDay y (m - 1) d + n)).2.2 (-n) = toISO y m d := by
    have h4 := addDaysYMD_eq (civilFromDays (makeDay y (m - 1) d + n)).1
      (civilFromDays (makeDay y (m - 1) d + n)).2.1
      (civilFromDays (makeDay y (m - 1) d + n)).2.2 (-n)
      (by omega) cm0 cm1 cd0 cgap (by rw [cmk]; simpa using hclip0)
    rw [h4, cmk]
    have e1 : makeDay y (m - 1) d + n + -n = makeDay y (m - 1) d := by ring
    rw [e1, hc0]
  rw [step1]
  show addDaysISO (addDaysYMD y m d n) (-n) = .ok (toISO y m d)
  rw [step2, step3, step4]

/-- Witness for the amended C9: June 1, 2024 shifted forward 40 days and back
40 days returns June 1, 2024. -/
theorem claim_C9_amended_witness :
    (addDaysISO (toISO 2024 6 1) 40).bind (fun s => addDaysISO s (-40)) =
      .ok (toISO 2024 6 1) :=
  claim_C9_amended 2024 6 1 40 (by decide) (by decide) (by decide) (by decide)
    (by decide) (by decide) (by decide) (by decide)

end TaskThrower
